import Mathlib

/-!
# A verification development for the pybofh command-line client

This file embeds the command-line parser (`bofh/parser.py`) and the
command/argument-resolution protocol (`bofh/proto.py`, `bofh/readlineui.py`)
of the pybofh repository as executable Lean definitions, and proves
properties of the embedded program.

Conventions of the shallow embedding:
* Python text offsets are `Int` because the value `-1` is used as an
  out-of-band signal by the lexer and parser.
* Python exceptions that the parser uses for control flow
  (`IncompleteParse`, `SynErr`) become an `Except` error channel.
* A Python generator of tokens becomes a `List` that parsing functions
  consume from the front, returning the remaining list.
* Python `None`-or-string values become `Option String`.
-/

namespace Pybofh

/-- A lexer token: the token text together with its start offset in the
line, where `-1` signals an incomplete trailing escape or quote
(`bofh/parser.py`, `lexer`). -/
abbrev Tok := String × Int

/-- Models Python 2 `unicode.startswith` on text: prefix test on the
character sequence. -/
def pyStartswith (s pre : String) : Bool :=
  pre.data.isPrefixOf s.data

/-- Models Python 2 `repr` of a unicode string as used in the parser's
error messages (`"Expected %r, got nothing" % (val,)`): a `u'...'` literal
with backslashes and single quotes escaped. -/
def pyRepr (s : String) : String :=
  "u'" ++ String.mk (s.data.flatMap
    (fun c => if c = '\\' then ['\\', '\\']
              else if c = '\'' then ['\\', '\'']
              else [c])) ++ "'"

/-- Models Python `unicode.isspace` on the ASCII whitespace characters
(the only whitespace the parser's inputs contain). -/
def pyIsSpace (c : Char) : Bool :=
  c = ' ' ∨ c = '\t' ∨ c = '\n' ∨ c = '\r' ∨ c = '\x0b' ∨ c = '\x0c'

/-! ## The lexer (`bofh/parser.py`, `lexer`)

The Python lexer is a generator scanning the line character by character
with a pending-token buffer `ret`, a recorded `start` offset and three
mode flags.  We embed it as a step function over an explicit state,
folded over the line's characters, followed by the generator's trailing
yields. -/

/-- The lexer's scanning state: the pending character buffer `ret`, its
start column, and the `inquotes` / `internalquotes` / `backslash` flags
of `lexer` in `bofh/parser.py`. -/
structure LexState where
  ret : List Char
  start : Nat
  inquotes : Bool
  internalquotes : Bool
  backslash : Bool
deriving Repr, DecidableEq

/-- The initial lexer state. -/
def LexState.init : LexState :=
  { ret := [], start := 0, inquotes := false,
    internalquotes := false, backslash := false }

/-- One iteration of the `for i, cur in enumerate(text)` loop of `lexer`:
given the current state, the character index `i` and the character `cur`,
produce the tokens yielded during this iteration and the next state. -/
def lexStep (st : LexState) (i : Nat) (cur : Char) : List Tok × LexState :=
  if st.backslash then
    let start' := if st.ret.isEmpty then i - 1 else st.start
    ([], { st with ret := st.ret ++ [cur], start := start', backslash := false })
  else if st.inquotes then
    if cur = '"' then
      if !st.internalquotes then
        ([(String.mk st.ret, (st.start : Int))],
         { st with ret := [], inquotes := false, internalquotes := false })
      else
        ([], { st with inquotes := false })
    else
      ([], { st with ret := st.ret ++ [cur] })
  else if cur = '(' ∨ cur = ')' then
    let flushed := if st.ret.isEmpty then [] else [(String.mk st.ret, (st.start : Int))]
    (flushed ++ [(String.mk [cur], (i : Int))], { st with ret := [] })
  else if cur = '"' then
    let internal := !st.ret.isEmpty
    let start' := if internal then st.start else i
    ([], { st with inquotes := true, internalquotes := internal, start := start' })
  else if pyIsSpace cur then
    if st.ret.isEmpty then ([], st)
    else ([(String.mk st.ret, (st.start : Int))], { st with ret := [] })
  else if cur = '\\' then
    ([], { st with backslash := true })
  else
    let start' := if st.ret.isEmpty then i else st.start
    ([], { st with ret := st.ret ++ [cur], start := start' })

/-- Fold `lexStep` over the characters of the line, starting at index `i`. -/
def lexRun (st : LexState) (i : Nat) : List Char → List Tok × LexState
  | [] => ([], st)
  | c :: cs =>
    let (out, st') := lexStep st i c
    let (out', st'') := lexRun st' (i + 1) cs
    (out ++ out', st'')

/-- The trailing yields of `lexer` after the character loop: an
incomplete escape as `("\\", -1)`, an unterminated quote as `("\"", -1)`,
and a final flush of any pending buffer. -/
def lexFinish (st : LexState) : List Tok :=
  (if st.backslash then [("\\", (-1 : Int))] else []) ++
  (if st.inquotes then [("\"", (-1 : Int))] else []) ++
  (if st.ret.isEmpty then [] else [(String.mk st.ret, (st.start : Int))])

/-- The lexer of `bofh/parser.py`: tokenize a line into `(text, offset)`
pairs. -/
def lexer (text : String) : List Tok :=
  let (out, st) := lexRun LexState.init 0 text.data
  out ++ lexFinish st

/-! ## Parse errors and `parse_string` -/

/-- The `parse` payload carried by an `IncompleteParse` exception: the
code stores `""`, `None`, a `(value, index)` pair or a partially parsed
list there, depending on the raising site. -/
inductive PPartial where
  | emptyStr
  | nothing
  | tok (val : String) (idx : Int)
  | rawlist (items : List Tok)
  | toklist (items : List Tok) (idx : Int)
deriving Repr, DecidableEq

/-- The parser's exception channel: `IncompleteParse` (with its `parse`
payload and `completions`) and the hard `SynErr` (with its message and
column index). -/
inductive PErr where
  | incomplete (msg : String) (parse : PPartial) (completions : List String)
  | syn (msg : String) (idx : Int)
deriving Repr, DecidableEq

/-- The sole-match computation at the end of `parse_string`: the single
remaining filtered candidate, else the typed text itself when it occurs
in the filtered set, else no sole match (Python returns `False`). -/
def soleMatch (val : String) (filtered : List String) : Option String :=
  match filtered with
  | [only] => some only
  | _ => if val ∈ filtered then some val else none

/-- `parse_string` of `bofh/parser.py`: pull one token from the stream,
fail with `IncompleteParse` when the stream is exhausted or the token is
an offset `-1` signal, fail with `SynErr` on a paren, and otherwise
filter `expected` to the prefix matches and compute the sole match.
Returns `(value, index, filtered, solematch, remaining stream)`. -/
def parse_string (toks : List Tok) (expected : List String) :
    Except PErr (String × Int × List String × Option String) × List Tok :=
  match toks with
  | [] =>
    (.error (.incomplete "Expected string, got nothing" .emptyStr expected), [])
  | (val, idx) :: rest =>
    if idx = -1 then
      (.error (.incomplete ("Expected " ++ pyRepr val ++ ", got nothing")
        .emptyStr expected), rest)
    else if val = "(" ∨ val = ")" then
      (.error (.syn ("Expected string, got " ++ pyRepr val) idx), rest)
    else
      let filtered := expected.filter (fun value => pyStartswith value val)
      (.ok (val, idx, filtered, soleMatch val filtered), rest)

/-- The value of a parsed argument as returned by `parse_string_or_list`:
either a bare token string or a parenthesized list of `(value, index)`
pairs. -/
inductive ArgVal where
  | str (s : String)
  | list (items : List Tok)
deriving Repr, DecidableEq

/-- The inner `parse_list` closure of `parse_string_or_list` in
`bofh/parser.py`: consume tokens until a closing `)`, handling the
offset `-1` signals (which may swallow up to two further tokens before
failing), forbidding a nested `(`, and failing with `IncompleteParse`
carrying the partial list when the stream runs out.  Returns the parsed
items and the remaining stream. -/
def parse_list : List Tok → List Tok → Except PErr (List Tok) × List Tok
  | [], ret =>
    (.error (.incomplete "Expected ), got nothing" (.rawlist ret) []), [])
  | (val, idx) :: rest, ret =>
    if idx = -1 then
      match rest with
      | [] =>
        (.error (.incomplete
          ("Expected " ++ (if val = "\\" then "something" else ")") ++
            ", got nothing") (.rawlist ret) []), [])
      | (val1, idx1) :: rest1 =>
        if idx1 = -1 then
          match rest1 with
          | (val2, idx2) :: rest2 =>
            (.error (.incomplete "Expected something and \", got nothing"
              (.rawlist (ret ++ [(val2, idx2)])) [" \")"]), rest2)
          | [] =>
            (.error (.incomplete "Expected something and \", got nothing"
              (.rawlist ret) [" \")"]), [])
        else
          (.error (.incomplete
            ("Expected " ++ (if val = "\\" then "something" else ")") ++
              ", got nothing")
            (.rawlist (ret ++ [(val1, idx1)]))
            (if val = "\\" then [" )"] else ["\")"])), rest1)
    else if val = "(" then ((.error (.syn "Nested list expression" idx)), rest)
    else if val = ")" then (.ok ret, rest)
    else parse_list rest (ret ++ [(val, idx)])

/-- `parse_string_or_list` of `bofh/parser.py`: get a bare string token
or a parenthesized list from the stream.  Offset `-1` signals at the
front produce `IncompleteParse` (possibly carrying a salvaged last
token); a `(` enters list parsing, whose `IncompleteParse` payload is
wrapped as `(partial_list, open_paren_index)`. -/
def parse_string_or_list (toks : List Tok) :
    Except PErr (ArgVal × Int) × List Tok :=
  match toks with
  | [] =>
    (.error (.incomplete "Expected string or list, got nothing" .nothing []),
      [])
  | (val, idx) :: rest =>
    if idx = -1 then
      match rest with
      | [] =>
        (.error (.incomplete
          ("Expected " ++ (if val = "\\" then "something" else "\"") ++
            ", got nothing") .nothing (if val = "\\" then [" "] else ["\""])),
          [])
      | (val1, idx1) :: rest1 =>
        if idx1 = -1 then
          match rest1 with
          | (val2, idx2) :: rest2 =>
            (.error (.incomplete "Expected something and \", got nothing"
              (.tok val2 idx2) [" \""]), rest2)
          | [] =>
            (.error (.incomplete "Expected something and \", got nothing"
              .nothing [" \""]), [])
        else
          (.error (.incomplete
            ("Expected " ++ (if val = "\\" then "something" else ")") ++
              ", got nothing")
            (.tok val1 idx1) (if val = "\\" then [" "] else ["\""])), rest1)
    else if val = "(" then
      match parse_list rest [] with
      | (.ok items, rest') => (.ok (.list items, idx), rest')
      | (.error (.incomplete msg (.rawlist items) comps), rest') =>
        (.error (.incomplete msg (.toklist items idx) comps), rest')
      | (.error e, rest') => (.error e, rest')
    else
      (.ok (.str val, idx), rest)

/-- `parse_list` consumes at least the closing paren: a successful parse
leaves a strictly shorter stream. -/
theorem parse_list_length {toks ret items rest}
    (h : parse_list toks ret = (.ok items, rest)) :
    rest.length < toks.length := by
  induction toks generalizing ret with
  | nil => simp [parse_list] at h
  | cons t ts ih =>
    obtain ⟨val, idx⟩ := t
    rw [parse_list.eq_def] at h
    dsimp only at h
    split at h
    · split at h
      · simp at h
      · split at h
        · split at h <;> simp at h
        · simp at h
    · split at h
      · simp at h
      · split at h
        · simp only [Prod.mk.injEq, Except.ok.injEq] at h
          obtain ⟨rfl, rfl⟩ := h
          exact Nat.lt_succ_self _
        · exact Nat.lt_succ_of_lt (ih h)

/-- `parse_string_or_list` consumes at least one token on success. -/
theorem parse_string_or_list_length {toks v idx rest}
    (h : parse_string_or_list toks = (.ok (v, idx), rest)) :
    rest.length < toks.length := by
  rcases toks with _ | ⟨⟨val, i⟩, ts⟩
  · simp [parse_string_or_list] at h
  · rw [parse_string_or_list.eq_def] at h
    dsimp only at h
    split at h
    · split at h
      · simp at h
      · split at h
        · split at h <;> simp at h
        · simp at h
    · split at h
      · split at h
        · rename_i items' rest' hp
          simp only [Prod.mk.injEq, Except.ok.injEq] at h
          obtain ⟨-, rfl⟩ := h
          exact Nat.lt_succ_of_lt (parse_list_length hp)
        · simp at h
        · simp at h
      · simp only [Prod.mk.injEq, Except.ok.injEq] at h
        obtain ⟨-, rfl⟩ := h
        exact Nat.lt_succ_self _

/-- `parse_string` consumes exactly one token on success. -/
theorem parse_string_length {toks expected v rest}
    (h : parse_string toks expected = (.ok v, rest)) :
    rest.length < toks.length := by
  rcases toks with _ | ⟨⟨val, i⟩, ts⟩
  · simp [parse_string] at h
  · rw [parse_string.eq_def] at h
    dsimp only at h
    split at h
    · simp at h
    · split at h
      · simp at h
      · simp only [Prod.mk.injEq, Except.ok.injEq] at h
        obtain ⟨-, rfl⟩ := h
        exact Nat.lt_succ_self _

/-! ## Whitespace-run specification of the lexer on plain lines (C6) -/

/-- Negation of `pyIsSpace`, used by the run-splitting specification. -/
def notSpace (c : Char) : Bool := !pyIsSpace c

/-- A character that is neither whitespace nor one of the lexer's special
characters (quote, backslash, parens): a line made only of such
characters and spaces is "built only from unquoted, unescaped,
space-separated tokens". -/
def plainChar (c : Char) : Bool :=
  decide (pyIsSpace c = false ∧ c ≠ '"' ∧ c ≠ '\\' ∧ c ≠ '(' ∧ c ≠ ')')

/-- Specification-side run splitter, following the spec's words: one
token per whitespace-delimited run, with offset equal to the run's start
column. -/
def spaceSeparatedRuns : List Char → Nat → List Tok
  | [], _ => []
  | c :: cs, i =>
    if pyIsSpace c then spaceSeparatedRuns cs (i + 1)
    else
      (String.mk (c :: cs.takeWhile notSpace), (i : Int)) ::
        spaceSeparatedRuns (cs.dropWhile notSpace)
          (i + 1 + (cs.takeWhile notSpace).length)
termination_by cs _ => cs.length
decreasing_by
  · simp
  · simp only [List.length_cons]
    exact Nat.lt_succ_of_le (List.dropWhile_sublist notSpace).length_le

/-- The tokens produced by running the lexer from state `st` at index `i`
over the remaining characters, including the generator's trailing
yields. -/
def lexAll (st : LexState) (i : Nat) (cs : List Char) : List Tok :=
  (lexRun st i cs).1 ++ lexFinish (lexRun st i cs).2

theorem lexer_eq_lexAll (text : String) :
    lexer text = lexAll LexState.init 0 text.data := rfl

theorem lexRun_cons (st : LexState) (i : Nat) (c : Char) (cs : List Char) :
    lexRun st i (c :: cs) =
      ((lexStep st i c).1 ++ (lexRun (lexStep st i c).2 (i + 1) cs).1,
        (lexRun (lexStep st i c).2 (i + 1) cs).2) := by
  rcases h : lexStep st i c with ⟨out, st'⟩
  rcases h2 : lexRun st' (i + 1) cs with ⟨out2, st2⟩
  simp [lexRun, h, h2]

theorem lexAll_cons (st : LexState) (i : Nat) (c : Char) (cs : List Char) :
    lexAll st i (c :: cs) =
      (lexStep st i c).1 ++ lexAll (lexStep st i c).2 (i + 1) cs := by
  simp [lexAll, lexRun_cons, List.append_assoc]

theorem lexAll_nil (st : LexState) (i : Nat) : lexAll st i [] = lexFinish st := by
  simp [lexAll, lexRun]

theorem plainChar_spec {c : Char} (h : plainChar c = true) :
    pyIsSpace c = false ∧ ¬(c = '"') ∧ ¬(c = '\\') ∧ ¬(c = '(') ∧ ¬(c = ')') :=
  of_decide_eq_true h

theorem pyIsSpace_spec {c : Char} (h : pyIsSpace c = true) :
    ¬(c = '"') ∧ ¬(c = '\\') ∧ ¬(c = '(') ∧ ¬(c = ')') := by
  have h' : c = ' ' ∨ c = '\t' ∨ c = '\n' ∨ c = '\r' ∨ c = '\x0b' ∨ c = '\x0c' := by
    simpa [pyIsSpace] using h
  rcases h' with rfl | rfl | rfl | rfl | rfl | rfl <;>
    exact ⟨by decide, by decide, by decide, by decide⟩

/-- Main induction for the lexer on plain lines: starting from a clean
state (no pending quote or escape), the lexer produces exactly the
whitespace-delimited runs; with a pending buffer, it first finishes the
run the buffer started. -/
theorem lexAll_spaceSeparatedRuns (n : Nat) : ∀ cs : List Char, cs.length ≤ n →
    (∀ c ∈ cs, plainChar c = true ∨ pyIsSpace c = true) →
    (∀ i s0 iq, lexAll ⟨[], s0, false, iq, false⟩ i cs = spaceSeparatedRuns cs i) ∧
    (∀ i buf s iq, buf ≠ [] →
      lexAll ⟨buf, s, false, iq, false⟩ i cs =
        (String.mk (buf ++ cs.takeWhile notSpace), (s : Int)) ::
          spaceSeparatedRuns (cs.dropWhile notSpace)
            (i + (cs.takeWhile notSpace).length)) := by
  induction n with
  | zero =>
    intro cs hlen hchars
    have : cs = [] := List.length_eq_zero.mp (Nat.le_zero.mp hlen)
    subst this
    refine ⟨fun i s0 iq => by simp [lexAll_nil, lexFinish, spaceSeparatedRuns],
      fun i buf s iq hbuf => ?_⟩
    have hbe : buf.isEmpty = false := by simp [List.isEmpty_iff]; exact hbuf
    simp [lexAll_nil, lexFinish, hbe, spaceSeparatedRuns]
  | succ n ih =>
    intro cs hlen hchars
    rcases cs with _ | ⟨c, cs'⟩
    · refine ⟨fun i s0 iq => by simp [lexAll_nil, lexFinish, spaceSeparatedRuns],
        fun i buf s iq hbuf => ?_⟩
      have hbe : buf.isEmpty = false := by simp [List.isEmpty_iff]; exact hbuf
      simp [lexAll_nil, lexFinish, hbe, spaceSeparatedRuns]
    · have hlen' : cs'.length ≤ n := by
        simp only [List.length_cons] at hlen
        omega
      have hchars' : ∀ c ∈ cs', plainChar c = true ∨ pyIsSpace c = true :=
        fun d hd => hchars d (List.mem_cons_of_mem _ hd)
      have hc := hchars c (List.mem_cons_self c cs')
      obtain ⟨ihA, ihB⟩ := ih cs' hlen' hchars'
      rcases hc with hplain | hspace
      · obtain ⟨hns, hq, hbs, hlp, hrp⟩ := plainChar_spec hplain
        have hnsb : notSpace c = true := by simp [notSpace, hns]
        constructor
        · intro i s0 iq
          have hstep : lexStep ⟨[], s0, false, iq, false⟩ i c =
              ([], ⟨[c], i, false, iq, false⟩) := by
            simp [lexStep, hns, hq, hbs, hlp, hrp]
          rw [lexAll_cons, hstep]
          simp only [List.nil_append]
          rw [ihB (i + 1) [c] i iq (by simp)]
          rw [spaceSeparatedRuns]
          simp only [hns, Bool.false_eq_true, if_false, List.takeWhile_cons, hnsb,
            if_true, List.dropWhile_cons, List.length_cons, List.cons_append,
            List.nil_append]
        · intro i buf s iq hbuf
          have hbe : buf.isEmpty = false := by simp [List.isEmpty_iff]; exact hbuf
          have hstep : lexStep ⟨buf, s, false, iq, false⟩ i c =
              ([], ⟨buf ++ [c], s, false, iq, false⟩) := by
            simp [lexStep, hns, hq, hbs, hlp, hrp, hbe]
          rw [lexAll_cons, hstep]
          simp only [List.nil_append]
          rw [ihB (i + 1) (buf ++ [c]) s iq (by simp)]
          simp only [List.takeWhile_cons, hnsb, if_true, List.dropWhile_cons,
            List.length_cons, List.append_assoc, List.singleton_append]
          have harith : i + 1 + (List.takeWhile notSpace cs').length =
              i + ((List.takeWhile notSpace cs').length + 1) := by omega
          rw [harith]
      · obtain ⟨hq, hbs, hlp, hrp⟩ := pyIsSpace_spec hspace
        have hnsb : notSpace c = false := by simp [notSpace, hspace]
        constructor
        · intro i s0 iq
          have hstep : lexStep ⟨[], s0, false, iq, false⟩ i c =
              ([], ⟨[], s0, false, iq, false⟩) := by
            simp [lexStep, hspace, hq, hbs, hlp, hrp]
          rw [lexAll_cons, hstep]
          simp only [List.nil_append]
          rw [ihA (i + 1) s0 iq]
          rw [spaceSeparatedRuns]
          simp [hspace]
        · intro i buf s iq hbuf
          have hbe : buf.isEmpty = false := by simp [List.isEmpty_iff]; exact hbuf
          have hstep : lexStep ⟨buf, s, false, iq, false⟩ i c =
              ([(String.mk buf, (s : Int))], ⟨[], s, false, iq, false⟩) := by
            simp [lexStep, hspace, hq, hbs, hlp, hrp, hbe]
          rw [lexAll_cons, hstep]
          rw [ihA (i + 1) s iq]
          simp only [List.takeWhile_cons, hnsb, Bool.false_eq_true, if_false,
        List.dropWhile_cons, List.length_nil, Nat.add_zero, List.append_nil,
            List.singleton_append]
          rw [spaceSeparatedRuns]
          simp [hspace]

/-- Instance search in this library version does not find decidable
equality for the parser's nested result tuples on its own; register the
product instances explicitly so concrete outcomes can be checked by
`decide`. -/
instance : DecidableEq (String × Int × List String × Option String × List Tok) :=
  instDecidableEqProd

instance : DecidableEq (ArgVal × Int × List Tok) :=
  instDecidableEqProd

/-- Decidable equality for `Except`, so concrete parser outcomes can be
checked by `decide`. -/
instance {e a : Type} [DecidableEq e] [DecidableEq a] : DecidableEq (Except e a) :=
  fun x y =>
    match x, y with
    | .ok v, .ok w =>
      if h : v = w then .isTrue (by rw [h]) else .isFalse (by simp [h])
    | .error v, .error w =>
      if h : v = w then .isTrue (by rw [h]) else .isFalse (by simp [h])
    | .ok _, .error _ => .isFalse (by simp)
    | .error _, .ok _ => .isFalse (by simp)

/-! ## Claim theorems about the lexer and `parse_string` -/

theorem pyStartswith_self (s : String) : pyStartswith s s = true := by
  simp [pyStartswith, List.isPrefixOf_iff_prefix]

theorem soleMatch_isSome (val : String) (filtered : List String) :
    (soleMatch val filtered).isSome = true ↔
      filtered.length = 1 ∨ val ∈ filtered := by
  rcases filtered with _ | ⟨a, _ | ⟨b, tl⟩⟩
  · simp [soleMatch]
  · simp [soleMatch]
  · show (if val ∈ a :: b :: tl then some val else none).isSome = true ↔ _
    split
    · rename_i hin
      simp [hin]
    · rename_i hnin
      simp only [Option.isSome_none, Bool.false_eq_true, false_iff,
        List.length_cons, not_or]
      exact ⟨by omega, hnin⟩

/-- C2: `parse_string` filters the candidate set to the prefix matches of
the pulled token's text in source order, and reports a sole match exactly
when the filtered set is a singleton or the typed text itself occurs
verbatim in the candidate set; with candidates `["user", "user_info"]`
and input `"user"` the sole match is `"user"`, while with candidates
`["user_info", "user_password"]` and input `"user"` there is no sole
match and both candidates are retained. -/
theorem parse_string_prefix_filter_sole_match :
    (∀ (val : String) (idx : Int) (rest : List Tok) (expected : List String),
      idx ≠ -1 → ¬(val = "(" ∨ val = ")") →
      ∃ sole : Option String,
        parse_string ((val, idx) :: rest) expected =
          (Except.ok (val, idx,
            expected.filter (fun v => pyStartswith v val), sole), rest) ∧
        (sole.isSome ↔
          (expected.filter (fun v => pyStartswith v val)).length = 1 ∨
            val ∈ expected)) ∧
    parse_string [("user", 0)] ["user", "user_info"] =
      (Except.ok ("user", 0, ["user", "user_info"], some "user"), []) ∧
    parse_string [("user", 0)] ["user_info", "user_password"] =
      (Except.ok ("user", 0, ["user_info", "user_password"], none), []) := by
  refine ⟨?_, by decide, by decide⟩
  intro val idx rest expected hidx hparen
  refine ⟨soleMatch val (expected.filter (fun v => pyStartswith v val)), ?_, ?_⟩
  · rw [parse_string.eq_def]
    dsimp only
    rw [if_neg hidx, if_neg hparen]
  · have hmem : val ∈ expected.filter (fun v => pyStartswith v val) ↔
        val ∈ expected := by
      simp [List.mem_filter, pyStartswith_self]
    rw [soleMatch_isSome]
    exact or_congr Iff.rfl hmem

/-- Witness for C2 at the spec's own example: candidates
`["user_info", "user_password"]` with typed text `"user_i"`. -/
theorem parse_string_prefix_filter_sole_match_witness :
    ∃ sole : Option String,
      parse_string [("user_i", (0 : Int))] ["user_info", "user_password"] =
        (Except.ok ("user_i", 0,
          (["user_info", "user_password"].filter
            (fun v => pyStartswith v "user_i")), sole), []) ∧
      (sole.isSome ↔
        ((["user_info", "user_password"].filter
          (fun v => pyStartswith v "user_i")).length = 1 ∨
          "user_i" ∈ ["user_info", "user_password"])) :=
  parse_string_prefix_filter_sole_match.1 "user_i" 0 []
    ["user_info", "user_password"] (by decide) (by decide)

/-- C3 counterexample: for the offset `-1` signal token `("\"", -1)` and
the candidate set `["user"]`, `parse_string` raises `IncompleteParse`
whose completions are the full candidate set `["user"]`, which is not the
empty candidate set the claim asserts. -/
theorem parse_string_signal_completions_counterexample :
    parse_string [("\"", -1)] ["user"] =
      (Except.error (.incomplete ("Expected " ++ pyRepr "\"" ++ ", got nothing")
        .emptyStr ["user"]), []) ∧
    (["user"] : List String) ≠ [] := ⟨by decide, by decide⟩

/-- C3 (amended): for every lexer stream whose next token has offset -1
and every candidate set, `parse_string` fails with `IncompleteParse`
echoing the signal's value in its message and carrying the full candidate
set it was given (not an empty set) as completions. -/
theorem parse_string_signal_incomplete (val : String) (rest : List Tok)
    (expected : List String) :
    parse_string ((val, -1) :: rest) expected =
      (Except.error (.incomplete ("Expected " ++ pyRepr val ++ ", got nothing")
        .emptyStr expected), rest) := by
  rw [parse_string.eq_def]
  dsimp only
  rw [if_pos rfl]

/-- C6: on a line built only from unquoted, unescaped, space-separated
tokens, the lexer yields exactly one token per whitespace-delimited run
with offset equal to the run's start column; moreover
`lexer "\"foo bar\"" = [("foo bar", 0)]` and
`lexer "foo \"bar" = [("foo", 0), ("\"", -1), ("bar", 4)]`: an
unterminated quote is signalled as a `("\"", -1)` token while the
remaining text is still tokenized. -/
theorem lexer_runs_and_quote_examples :
    (∀ text : String,
      (∀ c ∈ text.data, plainChar c = true ∨ pyIsSpace c = true) →
      lexer text = spaceSeparatedRuns text.data 0) ∧
    lexer "\"foo bar\"" = [("foo bar", 0)] ∧
    lexer "foo \"bar" = [("foo", 0), ("\"", -1), ("bar", 4)] := by
  refine ⟨fun text h => ?_, by decide, by decide⟩
  rw [lexer_eq_lexAll]
  exact (lexAll_spaceSeparatedRuns text.data.length text.data le_rfl h).1 0 0 false

/-- Witness for C6 at the spec's example line
`"group_name command_name"`. -/
theorem lexer_runs_witness :
    lexer "group_name command_name" = [("group_name", 0), ("command_name", 11)] := by
  have h := lexer_runs_and_quote_examples.1 "group_name command_name" (by decide)
  rw [h]
  simp +decide [spaceSeparatedRuns, notSpace, pyIsSpace]

/-! ## The protocol layer (`bofh/proto.py`)

Python values that cross the RPC boundary are modeled by `PyVal`; the
transport (`self._connection`'s method call `fn(...)`) is an oracle
indexed by the number of transport invocations made so far, so that a
retry closure can be represented by the index at which it resumes. -/

/-- A Python value as seen by the protocol layer: `None`, strings,
numbers, booleans, lists (also standing for tuples) and string-keyed
dicts. -/
inductive PyVal where
  | vnone
  | str (s : String)
  | num (n : Int)
  | bool (b : Bool)
  | list (xs : List PyVal)
  | dict (xs : List (String × PyVal))

mutual

def PyVal.beq : PyVal → PyVal → Bool
  | .vnone, .vnone => true
  | .str a, .str b => a = b
  | .num a, .num b => a = b
  | .bool a, .bool b => a = b
  | .list a, .list b => PyVal.beqList a b
  | .dict a, .dict b => PyVal.beqDict a b
  | _, _ => false

def PyVal.beqList : List PyVal → List PyVal → Bool
  | [], [] => true
  | a :: as', b :: bs' => PyVal.beq a b && PyVal.beqList as' bs'
  | _, _ => false

def PyVal.beqDict : List (String × PyVal) → List (String × PyVal) → Bool
  | [], [] => true
  | (ka, va) :: as', (kb, vb) :: bs' =>
    ka = kb && PyVal.beq va vb && PyVal.beqDict as' bs'
  | _, _ => false

end

mutual

theorem PyVal.beq_eq : ∀ a b : PyVal, PyVal.beq a b = true → a = b
  | .vnone, .vnone, _ => rfl
  | .str a, .str b, h => by
    simp only [PyVal.beq, decide_eq_true_eq] at h
    rw [h]
  | .num a, .num b, h => by
    simp only [PyVal.beq, decide_eq_true_eq] at h
    rw [h]
  | .bool a, .bool b, h => by
    simp only [PyVal.beq, decide_eq_true_eq] at h
    rw [h]
  | .list a, .list b, h => by
    simp only [PyVal.beq] at h
    rw [PyVal.beqList_eq a b h]
  | .dict a, .dict b, h => by
    simp only [PyVal.beq] at h
    rw [PyVal.beqDict_eq a b h]

theorem PyVal.beqList_eq : ∀ a b : List PyVal, PyVal.beqList a b = true → a = b
  | [], [], _ => rfl
  | a :: as', b :: bs', h => by
    simp only [PyVal.beqList, Bool.and_eq_true] at h
    rw [PyVal.beq_eq a b h.1, PyVal.beqList_eq as' bs' h.2]

theorem PyVal.beqDict_eq :
    ∀ a b : List (String × PyVal), PyVal.beqDict a b = true → a = b
  | [], [], _ => rfl
  | (ka, va) :: as', (kb, vb) :: bs', h => by
    simp only [PyVal.beqDict, Bool.and_eq_true, decide_eq_true_eq] at h
    rw [h.1.1, PyVal.beq_eq va vb h.1.2, PyVal.beqDict_eq as' bs' h.2]

end

mutual

theorem PyVal.beq_refl : ∀ a : PyVal, PyVal.beq a a = true
  | .vnone => rfl
  | .str a => by simp [PyVal.beq]
  | .num a => by simp [PyVal.beq]
  | .bool a => by simp [PyVal.beq]
  | .list a => by simp only [PyVal.beq]; exact PyVal.beqList_refl a
  | .dict a => by simp only [PyVal.beq]; exact PyVal.beqDict_refl a

theorem PyVal.beqList_refl : ∀ a : List PyVal, PyVal.beqList a a = true
  | [] => rfl
  | a :: as' => by
    simp only [PyVal.beqList, Bool.and_eq_true]
    exact ⟨PyVal.beq_refl a, PyVal.beqList_refl as'⟩

theorem PyVal.beqDict_refl :
    ∀ a : List (String × PyVal), PyVal.beqDict a a = true
  | [] => rfl
  | (ka, va) :: as' => by
    simp only [PyVal.beqDict, Bool.and_eq_true, decide_eq_true_eq]
    exact ⟨⟨trivial, PyVal.beq_refl va⟩, PyVal.beqDict_refl as'⟩

end

instance : DecidableEq PyVal := fun a b =>
  if h : PyVal.beq a b = true then .isTrue (PyVal.beq_eq a b h)
  else .isFalse (fun he => h (he ▸ PyVal.beq_refl a))

/-- Python truthiness of a `PyVal` (`if map:`, `if ret:`, `if hlp:`). -/
def pyTruthy : PyVal → Bool
  | .vnone => false
  | .str s => s ≠ ""
  | .num n => n ≠ 0
  | .bool b => b
  | .list xs => xs ≠ []
  | .dict xs => xs ≠ []

/-- `dict.get(key)` on a `PyVal`: the value under `key`, or `None` when
the key is absent (only ever applied to dict responses). -/
def pyGet (d : PyVal) (key : String) : PyVal :=
  match d with
  | .dict xs => ((xs.find? (fun kv => kv.1 = key)).map Prod.snd).getD .vnone
  | _ => .vnone

mutual

/-- `_washresponse` of `bofh/proto.py`: recursively walk the response;
a string starting with `:` decodes to `None` when it is exactly `":None"`
and otherwise loses the leading colon. -/
def washresponse : PyVal → PyVal
  | .vnone => .vnone
  | .str s =>
    if s.data.head? = some ':' then
      if s = ":None" then .vnone else .str (String.mk s.data.tail)
    else .str s
  | .num n => .num n
  | .bool b => .bool b
  | .list xs => .list (washList xs)
  | .dict xs => .dict (washDict xs)

def washList : List PyVal → List PyVal
  | [] => []
  | x :: xs => washresponse x :: washList xs

def washDict : List (String × PyVal) → List (String × PyVal)
  | [] => []
  | (k, v) :: xs => (k, washresponse v) :: washDict xs

end

/-- `Bofh.format_args`: a string argument starting with `:` gets an
extra leading `:` (the backend slices one off). -/
def format_args (args : List PyVal) : List PyVal :=
  args.map (fun a =>
    match a with
    | .str s => if s.data.head? = some ':' then .str (":" ++ s) else .str s
    | x => x)

/-- `s.split(sep, 1)` on character lists: the text before and after the
first occurrence of `sep`, if `sep` occurs at all. -/
def splitOnceAux (sep : List Char) : List Char → Option (List Char × List Char)
  | [] => none
  | c :: cs =>
    if sep.isPrefixOf (c :: cs) then some ([], (c :: cs).drop sep.length)
    else
      match splitOnceAux sep cs with
      | some (pre, post) => some (c :: pre, post)
      | none => none

/-- Python `s.split(sep, 1)` restricted to the case the code uses: the
pieces around the first occurrence of `sep`, or `none` when `sep` does
not occur. -/
def pySplit1 (s sep : String) : Option (String × String) :=
  (splitOnceAux sep.data s.data).map
    (fun p => (String.mk p.1, String.mk p.2))

/-- The internal error-class package prefix recognized on fault
strings. -/
def epkg : String := "Cerebrum.modules.bofhd.errors."

/-- The fault-to-`BofhError` unwrapping of `_run_raw_sess_command` and
`_run_raw_command`: everything after the first `:`; when that starts
with `"CerebrumError: "`, everything after the first `": "` instead.
`none` means the raw fault is re-raised. -/
def faultToBofhMsg (s : String) : Option String :=
  match pySplit1 s ":" with
  | none => none
  | some (_, msg) =>
    if pyStartswith msg "CerebrumError: " then
      match pySplit1 s ": " with
      | some (_, msg2) => some msg2
      | none => none
    else some msg

/-- One transport invocation's outcome, supplied by the oracle. -/
inductive TransportResult where
  | ok (resp : PyVal)
  | fault (faultString : String)

/-- The error channel of a session command: a session-expired condition
carrying the retry continuation (`run_command` itself, represented by the
transport index at which it resumes; `none` models a falsy `e.cont`), a
domain `BofhError`, or an unhandled raw fault. -/
inductive CallErr where
  | sessionExpired (cont : Option Nat)
  | bofhError (msg : String)
  | rawFault (faultString : String)
  | typeError
deriving DecidableEq, Repr

/-- Observable protocol events, used to state how often re-login, the
prompt and the continuation happen. -/
inductive Event where
  | rpcCall (name : String) (args : List PyVal)
  | initCommands
  | login (user : Option PyVal) (password : PyVal) (init : Bool)
  | prompted (argtype : Option String)
  | contInvoked
deriving DecidableEq

/-- The body of the `run_command` closure in `_run_raw_sess_command`: one
attempt at the RPC, washing the response, with the three fault branches
(server-restarted: refresh catalog and re-call the transport once, any
fault of that retry propagating raw; session-expired: a
`SessionExpiredError` whose continuation resumes at the next transport
index; other package faults: unwrapped to `BofhError`; anything else:
re-raised raw).  `k` is the next unused transport index; the returned
`Nat` is the index after this attempt. -/
def runCommandAttempt (transport : Nat → TransportResult) (name : String)
    (args : List PyVal) (k : Nat) : Except CallErr PyVal × List Event × Nat :=
  let sent := format_args args
  match transport k with
  | .ok r => (.ok (washresponse r), [.rpcCall name sent], k + 1)
  | .fault s =>
    if pyStartswith s (epkg ++ "ServerRestartedError:") then
      match transport (k + 1) with
      | .ok r =>
        (.ok (washresponse r),
          [.rpcCall name sent, .initCommands, .rpcCall name sent], k + 2)
      | .fault s2 =>
        (.error (.rawFault s2),
          [.rpcCall name sent, .initCommands, .rpcCall name sent], k + 2)
    else if pyStartswith s (epkg ++ "SessionExpiredError:") then
      (.error (.sessionExpired (some (k + 1))), [.rpcCall name sent], k + 1)
    else if pyStartswith s epkg then
      match faultToBofhMsg s with
      | some msg => (.error (.bofhError msg), [.rpcCall name sent], k + 1)
      | none => (.error (.rawFault s), [.rpcCall name sent], k + 1)
    else (.error (.rawFault s), [.rpcCall name sent], k + 1)

/-! ## Argument specifications and `prompt_missing_args` -/

/-- The `default` attribute of an argument spec (`map.get('default')`):
absent, a string, or another value whose truthiness decides whether
`get_default_param` asks the server. -/
inductive DefaultSpec where
  | dnone
  | dstr (s : String)
  | dflag (b : Bool)
deriving DecidableEq, Repr

/-- `_Argument` of `bofh/proto.py`.  The Python attribute names `repeat`
and `type` are Lean keywords and are embedded as `rep` and `argtype`. -/
structure ArgSpec where
  optional : Bool
  rep : Bool
  default : DefaultSpec
  argtype : Option String
  help_ref : Option String
  prompt : Option String
deriving DecidableEq, Repr

/-- A required argument spec with no interesting attributes. -/
def ArgSpec.required : ArgSpec :=
  ⟨false, false, .dnone, none, none, none⟩

/-- An optional argument spec with no interesting attributes. -/
def ArgSpec.opt : ArgSpec :=
  ⟨true, false, .dnone, none, none, none⟩

/-- `_Command.args`: either the distinguished `"prompt_func"` sentinel
(the whole argument list is server-driven, `[_PromptFunc]`) or a static
list of argument specs. -/
inductive ArgsSpec where
  | promptFunc
  | static (specs : List ArgSpec)
deriving DecidableEq, Repr

/-- The tuple of positional arguments a prompter function receives:
`(prompt, mapping, help, default, argtype, optional)`.  `mapping` is
`None` or the transformed choice list (pairs of key and display
string). -/
structure PromptReq where
  prompt : PyVal
  mapping : Option (List (PyVal × String))
  help : PyVal
  default : PyVal
  argtype : Option String
  optional : Bool
deriving DecidableEq

/-- `_Command.get_default_param`: the spec's own default when it is a
string; when it is otherwise truthy, ask the server (modeled by the pure
oracle `serverDefault`, which receives `num` and `args[0:num+1]`);
otherwise `None`. -/
def get_default_param (specs : List ArgSpec)
    (serverDefault : Nat → List PyVal → PyVal)
    (num : Nat) (args : List PyVal) : PyVal :=
  match (specs.get? num).map ArgSpec.default with
  | some (.dstr s) => .str s
  | some (.dflag true) => serverDefault num (args.take (num + 1))
  | _ => .vnone

/-- The instrumented result of `prompt_missing_args` on a static spec
list: the returned argument list, the trace of prompts issued (argument
index, request passed to the prompter, the prompter's answer), the index
at which an optional argument's falsy answer returned early (if any),
and the next prompter-oracle counter. -/
structure PMAResult where
  result : List PyVal
  trace : List (Nat × PromptReq × PyVal)
  stoppedEarly : Option Nat
  pcnt : Nat
deriving DecidableEq

/-- The prompter invocation of `prompt_missing_args`:
`prompt_func(args[i].prompt, None, args[i].help,
self.get_default_param(i, arglst), args[i].type, args[i].optional)`.
`helpOf` models the `_Argument.help` server lookup by `help_ref` and
`serverDefault` the `get_default_param` server call, both as pure
oracles. -/
def pmaReq (specs : List ArgSpec) (helpOf : Option String → PyVal)
    (serverDefault : Nat → List PyVal → PyVal) (spec : ArgSpec) (i : Nat)
    (arglst : List PyVal) : PromptReq :=
  { prompt := spec.prompt.elim PyVal.vnone PyVal.str
    mapping := none
    help := helpOf spec.help_ref
    default := get_default_param specs serverDefault i arglst
    argtype := spec.argtype
    optional := spec.optional }

/-- The `for i in range(len(rest), len(args))` loop of
`prompt_missing_args`, recursing over the remaining declared specs with
`i` the current argument index: an argument is prompted when the
`has_prompted` latch is set or it is not optional; a falsy answer to an
optional argument returns the arguments collected so far; otherwise the
answer is appended. -/
def pmaLoop (specs : List ArgSpec) (helpOf : Option String → PyVal)
    (serverDefault : Nat → List PyVal → PyVal)
    (promptFn : Nat → PromptReq → PyVal) (rest : List PyVal) :
    List ArgSpec → Nat → Bool → List PyVal → Nat → PMAResult
  | [], _, _, ret, pcnt => ⟨rest ++ ret, [], none, pcnt⟩
  | spec :: rem, i, hasPrompted, ret, pcnt =>
    if hasPrompted ∨ ¬spec.optional then
      let req := pmaReq specs helpOf serverDefault spec i (rest ++ ret)
      let ans := promptFn pcnt req
      if ¬pyTruthy ans ∧ spec.optional then
        ⟨rest ++ ret, [(i, req, ans)], some i, pcnt + 1⟩
      else
        let r := pmaLoop specs helpOf serverDefault promptFn rest rem (i + 1)
          true (ret ++ [ans]) (pcnt + 1)
        ⟨r.result, (i, req, ans) :: r.trace, r.stoppedEarly, r.pcnt⟩
    else
      pmaLoop specs helpOf serverDefault promptFn rest rem (i + 1) hasPrompted
        ret pcnt

/-- `prompt_missing_args` on a static argument-spec list (the
`_PromptFunc` case dispatches to `_prompt_func`, modeled separately):
when more arguments were supplied than declared, return them unchanged
without prompting; otherwise run the prompting loop over the argument
indices from `len(rest)` to `len(args) - 1`, i.e. over the declared
specs not yet covered by `rest`. -/
def prompt_missing_args (specs : List ArgSpec) (helpOf : Option String → PyVal)
    (serverDefault : Nat → List PyVal → PyVal)
    (promptFn : Nat → PromptReq → PyVal)
    (rest : List PyVal) (pcnt : Nat) : PMAResult :=
  if rest.length > specs.length then ⟨rest, [], none, pcnt⟩
  else pmaLoop specs helpOf serverDefault promptFn rest
    (specs.drop rest.length) rest.length false [] pcnt

/-! ## The interactive prompter (`bofh/readlineui.py`, `prompter`) -/

/-- Python `int(val)` as used by the prompter's choice selection. -/
def pyParseInt (s : String) : Option Int := s.toInt?

/-- The outcome of one iteration of the prompter's `while True` loop:
either a returned answer or another round (`continue`). -/
inductive PrompterStep where
  | answer (v : PyVal)
  | again
deriving DecidableEq

/-- One iteration of the `while True` loop of `prompter` in
`bofh/readlineui.py`, on the j-th line of user input: a stripped-empty
input with a falsy default returns `None` when the argument is optional
and otherwise re-prompts; an empty input with a truthy default returns
the default; `?` prints help and re-prompts; with a choice mapping the
input must select a valid 1-based item (whose key is returned), else the
loop re-prompts; otherwise the typed text is returned. -/
def prompterStep (inputs : Nat → String)
    (mapping : Option (List (PyVal × String))) (default : PyVal)
    (optional : Bool) (j : Nat) : PrompterStep :=
  let val := (inputs j).trim
  let choiceKeys : List PyVal :=
    match mapping with
    | some (_ :: entries) => entries.map Prod.fst
    | _ => []
  if val = "" ∧ ¬pyTruthy default then
    if optional then .answer .vnone else .again
  else if val = "" then .answer default
  else if val = "?" then .again
  else if choiceKeys ≠ [] then
    match pyParseInt val with
    | none => .again
    | some i =>
      if i < 1 then .again
      else
        match choiceKeys.get? (i - 1).toNat with
        | some key => .answer key
        | none => .again
  else .answer (.str val)

/-- The `while True` loop of `prompter`, iterating `prompterStep` over
the user-input stream with a fuel bound: `none` means the loop was still
re-prompting after `fuel` iterations, otherwise the prompter's return
value (`PyVal.vnone` models returning `None`) and the next unread input
index. -/
def prompterLoop (inputs : Nat → String)
    (mapping : Option (List (PyVal × String))) (default : PyVal)
    (optional : Bool) : Nat → Nat → Option (PyVal × Nat)
  | 0, _ => none
  | fuel + 1, j =>
    match prompterStep inputs mapping default optional j with
    | .answer v => some (v, j + 1)
    | .again => prompterLoop inputs mapping default optional fuel (j + 1)

/-! ## `_Command._prompt_func` and `_Command.__call__` -/

/-- The prompt request issued on session expiry:
`prompt_func(u"You need to reauthenticate\nPassword:", None,
u"Please type your password", None, 'accountPassword')`. -/
def reauthReq : PromptReq :=
  { prompt := .str "You need to reauthenticate\nPassword:"
    mapping := none
    help := .str "Please type your password"
    default := .vnone
    argtype := some "accountPassword"
    optional := false }

/-- `val[0] % tuple(val[1:]) if u'%' in val[0] else val[0]` on a map
entry's label `val`: the label list's head string, `%`-expanded over the
remaining elements when it contains a `%` (the expansion itself is the
opaque collaborator `pyFmt`).  `none` models the `TypeError`/`IndexError`
Python would raise on an ill-formed label. -/
def pfFmtVal (pyFmt : String → List PyVal → String) : PyVal → Option String
  | .list (.str f :: fargs) =>
    some (if f.data.contains '%' then pyFmt f fargs else f)
  | _ => none

/-- The entries `map[1:]` of the choice-list transformation in
`_prompt_func`: each entry `(val, key)` becomes
`(i if raw else key, formatted val)` with `i` counting from 1. -/
def buildNewmapTail (pyFmt : String → List PyVal → String) (raw : Bool) :
    List PyVal → Nat → Option (List (PyVal × String))
  | [], _ => some []
  | .list [val, key] :: tl, i => do
    let s ← pfFmtVal pyFmt val
    let rest ← buildNewmapTail pyFmt raw tl (i + 1)
    some ((if raw then PyVal.num i else key, s) :: rest)
  | _, _ => none

/-- The full choice-list transformation of `_prompt_func`: the header
entry `(None, formatted map[0][0])` followed by the transformed tail. -/
def buildNewmap (pyFmt : String → List PyVal → String) (raw : Bool) :
    List PyVal → Option (List (PyVal × String))
  | [] => none
  | hd :: tl =>
    match hd with
    | .list (hv :: _) => do
      let header ← pfFmtVal pyFmt hv
      let rest ← buildNewmapTail pyFmt raw tl 1
      some ((PyVal.vnone, header) :: rest)
    | _ => none

/-- The `while ans == u"": ans = prompt_func(...)` loop of
`_prompt_func`, over the prompter oracle and a fuel bound: the answer
(anything other than the empty string, including `None`, exits the
loop), the next prompter counter, and one `prompted` event per
invocation; `none` when `fuel` invocations all returned `""`. -/
def pfAnswerLoop (promptFn : Nat → PromptReq → PyVal) (req : PromptReq) :
    Nat → Nat → Option (PyVal × Nat × List Event)
  | 0, _ => none
  | fuel + 1, pcnt =>
    let ans := promptFn pcnt req
    if ans = .str "" then
      match pfAnswerLoop promptFn req fuel (pcnt + 1) with
      | some (a, p, ev) => some (a, p, .prompted req.argtype :: ev)
      | none => none
    else some (ans, pcnt + 1, [.prompted req.argtype])

/-- The outcome of a `_prompt_func` round-trip. -/
inductive PFOutcome where
  | done (args : List PyVal)
  | err (e : CallErr)
  | fuelOut
deriving DecidableEq

/-- One step of a finished reply or a recursion request. -/
inductive PFStep where
  | finished (out : PFOutcome)
  | next (args : List PyVal)
deriving DecidableEq

/-- The choice-list transformation of `_prompt_func` on a reply `v`:
no transformation (an empty `newmap`) when `map` is falsy, otherwise the
`buildNewmap` result; `none` models the exception Python would raise on
an ill-formed `map`. -/
def pfNewmap (pyFmt : String → List PyVal → String) (v : PyVal) :
    Option (List (PyVal × String)) :=
  let mapv := pyGet v "map"
  if pyTruthy mapv then
    match mapv with
    | .list entries => buildNewmap pyFmt (pyTruthy (pyGet v "raw")) entries
    | _ => none
  else some []

/-- The prompt request issued by `_prompt_func` for a reply `v`:
`prompt_func(result.get('prompt'), newmap, hlp, result.get('default'))`,
where `hlp` is the reply's `help_ref` resolved through the `arg_help`
oracle when truthy. -/
def pfReq (argHelp : PyVal → PyVal) (v : PyVal)
    (newmap : List (PyVal × String)) : PromptReq :=
  let hlpRef := pyGet v "help_ref"
  { prompt := pyGet v "prompt"
    mapping := some newmap
    help := if pyTruthy hlpRef then argHelp hlpRef else hlpRef
    default := pyGet v "default"
    argtype := none
    optional := false }

/-- Steps 2-6 of `_prompt_func` on a received reply `v`: return the
accumulated arguments when `prompt` is `None` and `last_arg` is truthy;
otherwise transform `map`, resolve `help_ref`, prompt until a non-`""`
answer, append it, and either finish (this round's `last_arg` truthy) or
request recursion with the updated argument list. -/
def promptFuncProcess (pyFmt : String → List PyVal → String)
    (argHelp : PyVal → PyVal) (promptFn : Nat → PromptReq → PyVal)
    (promptFuel : Nat) (args : List PyVal) (v : PyVal) (pcnt : Nat) :
    PFStep × List Event × Nat :=
  if pyGet v "prompt" = .vnone ∧ pyTruthy (pyGet v "last_arg") then
    (.finished (.done args), [], pcnt)
  else
    match pfNewmap pyFmt v with
    | none => (.finished (.err .typeError), [], pcnt)
    | some newmap =>
      match pfAnswerLoop promptFn (pfReq argHelp v newmap) promptFuel pcnt with
      | none => (.finished .fuelOut, [], pcnt)
      | some (ans, pcnt', ev) =>
        if pyTruthy (pyGet v "last_arg") then
          (.finished (.done (args ++ [ans])), ev, pcnt')
        else (.next (args ++ [ans]), ev, pcnt')

/-- The `call_prompt_func` RPC of `_prompt_func` including its
session-expired recovery: on a session-expired condition carrying a
continuation, prompt for a password with the `accountPassword` argument
type, `login(None, pw, False)`, and invoke the continuation exactly once,
using its result as the reply; a condition without a continuation (and
any other error) propagates unchanged. -/
def getPFReply (transport : Nat → TransportResult)
    (promptFn : Nat → PromptReq → PyVal) (fullname : String)
    (args : List PyVal) (k pcnt : Nat) :
    Except CallErr PyVal × List Event × Nat × Nat :=
  let (r, ev, k') :=
    runCommandAttempt transport "call_prompt_func" (.str fullname :: args) k
  match r with
  | .ok v => (.ok v, ev, k', pcnt)
  | .error (.sessionExpired (some kc)) =>
    let pw := promptFn pcnt reauthReq
    let (r2, ev2, k2) :=
      runCommandAttempt transport "call_prompt_func" (.str fullname :: args) kc
    let evPre := ev ++
      [.prompted (some "accountPassword"), .login none pw false, .contInvoked]
      ++ ev2
    match r2 with
    | .ok v => (.ok v, evPre, k2, pcnt + 1)
    | .error e => (.error e, evPre, k2, pcnt + 1)
  | .error e => (.error e, ev, k', pcnt)

/-- `_Command._prompt_func`: repeatedly obtain a reply via `getPFReply`,
process it with `promptFuncProcess`, and recurse while the server keeps
asking; `fuel` bounds the number of round-trips (the Python recursion is
unbounded, terminated only by the server's `last_arg`). -/
def promptFuncLoop (transport : Nat → TransportResult)
    (pyFmt : String → List PyVal → String) (argHelp : PyVal → PyVal)
    (fullname : String) (promptFn : Nat → PromptReq → PyVal)
    (promptFuel : Nat) :
    Nat → List PyVal → Nat → Nat → PFOutcome × List Event × Nat × Nat
  | 0, _, k, pcnt => (.fuelOut, [], k, pcnt)
  | fuel + 1, args, k, pcnt =>
    match getPFReply transport promptFn fullname args k pcnt with
    | (.ok v, ev, k', p) =>
      match promptFuncProcess pyFmt argHelp promptFn promptFuel args v p with
      | (.finished out, ev3, p') => (out, ev ++ ev3, k', p')
      | (.next args', ev3, p') =>
        let (out, ev4, kf, pf') :=
          promptFuncLoop transport pyFmt argHelp fullname promptFn promptFuel
            fuel args' k' p'
        (out, ev ++ ev3 ++ ev4, kf, pf')
    | (.error e, ev, k', p) => (.err e, ev, k', p)

/-- A string-valued `PyVal` (Python `isinstance(x, basestring)`). -/
def PyVal.isStr : PyVal → Bool
  | .str _ => true
  | _ => false

/-- A list/tuple-valued `PyVal`. -/
def PyVal.isList : PyVal → Bool
  | .list _ => true
  | _ => false

/-- The formatting tail of `_Command.__call__`: with formatting on and a
non-string result, when any argument is a list the result's elements are
each formatted and joined with newlines, otherwise the whole result is
formatted; the format-suggestion interpreter itself is the opaque
collaborator `formatFn`. -/
def applyFormat (formatFn : PyVal → String) (withFormat : Bool)
    (args : List PyVal) (ret : PyVal) : Except CallErr PyVal :=
  if withFormat ∧ ¬(ret.isStr = true) then
    if args.any (fun a => a.isList) then
      match ret with
      | .list xs => .ok (.str (String.intercalate "\n" (xs.map formatFn)))
      | _ => .error .typeError
    else .ok (.str (formatFn ret))
  else .ok ret

/-- The dispatch part of `_Command.__call__` once the argument list is
known: run `run_command` through the session layer; on a session-expired
condition carrying a continuation, prompt for a password with the
`accountPassword` argument type, `login(None, pw, False)`, invoke the
continuation exactly once and use its result as if the original call had
succeeded; a condition without a continuation (and every other error) is
re-raised unchanged; finally apply response formatting. -/
def commandDispatch (transport : Nat → TransportResult)
    (prompter : Option (Nat → PromptReq → PyVal))
    (formatFn : PyVal → String) (fullname : String)
    (args : List PyVal) (withFormat : Bool) (k pcnt : Nat) :
    Except CallErr PyVal × List Event × Nat × Nat :=
  let (r, ev, k') :=
    runCommandAttempt transport "run_command" (.str fullname :: args) k
  match r with
  | .ok ret =>
    match applyFormat formatFn withFormat args ret with
    | .ok v => (.ok v, ev, k', pcnt)
    | .error e => (.error e, ev, k', pcnt)
  | .error (.sessionExpired (some kc)) =>
    match prompter with
    | none => (.error .typeError, ev, k', pcnt)
    | some pf =>
      let pw := pf pcnt reauthReq
      let (r2, ev2, k2) :=
        runCommandAttempt transport "run_command" (.str fullname :: args) kc
      let evAll := ev ++
        [.prompted (some "accountPassword"), .login none pw false, .contInvoked]
        ++ ev2
      match r2 with
      | .ok ret =>
        match applyFormat formatFn withFormat args ret with
        | .ok v => (.ok v, evAll, k2, pcnt + 1)
        | .error e => (.error e, evAll, k2, pcnt + 1)
      | .error e => (.error e, evAll, k2, pcnt + 1)
  | .error e => (.error e, ev, k', pcnt)

/-- The outcome of a full `_Command.__call__`. -/
inductive CmdOutcome where
  | ok (v : PyVal)
  | err (e : CallErr)
  | fuelOut
deriving DecidableEq

/-- `_Command.__call__`: with a prompter, resolve missing arguments first
(server-driven `_prompt_func` when the spec is the `prompt_func`
sentinel, otherwise `prompt_missing_args`); then dispatch through
`commandDispatch`. -/
def commandCall (transport : Nat → TransportResult)
    (prompter : Option (Nat → PromptReq → PyVal))
    (helpOf : Option String → PyVal)
    (serverDefault : Nat → List PyVal → PyVal)
    (pyFmt : String → List PyVal → String) (argHelp : PyVal → PyVal)
    (formatFn : PyVal → String) (fullname : String) (spec : ArgsSpec)
    (rest : List PyVal) (withFormat : Bool) (promptFuel pfFuel : Nat)
    (k pcnt : Nat) : CmdOutcome × List Event × Nat × Nat :=
  let dispatch := fun (args : List PyVal) (ev0 : List Event) (k0 p0 : Nat) =>
    match commandDispatch transport prompter formatFn fullname args withFormat k0 p0 with
    | (.ok v, ev, k1, p1) => (CmdOutcome.ok v, ev0 ++ ev, k1, p1)
    | (.error e, ev, k1, p1) => (CmdOutcome.err e, ev0 ++ ev, k1, p1)
  match prompter with
  | none => dispatch rest [] k pcnt
  | some pf =>
    match spec with
    | .promptFunc =>
      match promptFuncLoop transport pyFmt argHelp fullname pf promptFuel
          pfFuel rest k pcnt with
      | (.done args, ev, k', p') => dispatch args ev k' p'
      | (.err e, ev, k', p') => (.err e, ev, k', p')
      | (.fuelOut, ev, k', p') => (.fuelOut, ev, k', p')
    | .static specs =>
      let pma := prompt_missing_args specs helpOf serverDefault pf rest pcnt
      dispatch pma.result [] k pma.pcnt

/-! ## Characterization of the prompting loop (C4, C10) -/

/-- Every index below `m < (l.takeWhile p).length` holds an element of
`l` satisfying `p`. -/
theorem takeWhile_get? {α : Type} (p : α → Bool) :
    ∀ (l : List α) (m : Nat), m < (l.takeWhile p).length →
      ∃ x, l.get? m = some x ∧ p x = true := by
  intro l
  induction l with
  | nil => intro m h; simp [List.takeWhile] at h
  | cons a l ih =>
    intro m h
    rw [List.takeWhile_cons] at h
    by_cases hp : p a = true
    · rw [if_pos hp] at h
      cases m with
      | zero => exact ⟨a, rfl, hp⟩
      | succ m =>
        simp only [List.length_cons] at h
        obtain ⟨x, hx, hpx⟩ := ih m (Nat.lt_of_succ_lt_succ h)
        exact ⟨x, hx, hpx⟩
    · rw [if_neg hp] at h
      simp at h

/-- `dropWhile` is `drop` of the `takeWhile` length. -/
theorem dropWhile_eq_drop {α : Type} (p : α → Bool) :
    ∀ l : List α, l.dropWhile p = l.drop (l.takeWhile p).length := by
  intro l
  induction l with
  | nil => rfl
  | cons a l ih =>
    by_cases hp : p a = true
    · simp [List.dropWhile_cons, List.takeWhile_cons, hp, ih]
    · simp [List.dropWhile_cons, List.takeWhile_cons, hp]

/-- While the `has_prompted` latch is unset, the loop skips the leading
optional specs without touching its state, and behaves from the first
non-optional spec on exactly as with the latch set. -/
theorem pmaLoop_skip (specs : List ArgSpec) (helpOf : Option String → PyVal)
    (serverDefault : Nat → List PyVal → PyVal)
    (promptFn : Nat → PromptReq → PyVal) (rest : List PyVal) :
    ∀ (rem : List ArgSpec) (i : Nat) (ret : List PyVal) (pcnt : Nat),
    pmaLoop specs helpOf serverDefault promptFn rest rem i false ret pcnt =
      pmaLoop specs helpOf serverDefault promptFn rest
        (rem.dropWhile ArgSpec.optional)
        (i + (rem.takeWhile ArgSpec.optional).length) true ret pcnt := by
  intro rem
  induction rem with
  | nil => intro i ret pcnt; simp [pmaLoop, List.takeWhile, List.dropWhile]
  | cons spec rem ih =>
    intro i ret pcnt
    by_cases hopt : spec.optional = true
    · rw [pmaLoop]
      simp only [hopt, not_true, or_false, if_false, Bool.not_true,
        false_or, ite_false]
      rw [ih (i + 1) ret pcnt]
      rw [List.dropWhile_cons, List.takeWhile_cons]
      simp only [hopt, if_true, List.length_cons]
      have harith : i + 1 + (rem.takeWhile ArgSpec.optional).length =
          i + ((rem.takeWhile ArgSpec.optional).length + 1) := by omega
      rw [harith]
      simp
    · rw [List.dropWhile_cons, List.takeWhile_cons]
      simp only [hopt, if_false, List.length_nil, Nat.add_zero, ite_false]
      simp only [pmaLoop]
      simp [hopt]

/-- With the `has_prompted` latch set, the loop prompts for every
remaining spec in index order, passing each spec's optional flag and a
`None` choice mapping; it stops early exactly at an optional spec whose
answer is falsy, returning the arguments collected before that answer;
otherwise every spec is prompted and all answers are appended. -/
theorem pmaLoop_prompting (specs : List ArgSpec) (helpOf : Option String → PyVal)
    (serverDefault : Nat → List PyVal → PyVal)
    (promptFn : Nat → PromptReq → PyVal) (rest : List PyVal) :
    ∀ (rem : List ArgSpec) (i : Nat) (ret : List PyVal) (pcnt : Nat),
    (pmaLoop specs helpOf serverDefault promptFn rest rem i true ret
        pcnt).trace.map Prod.fst =
      List.range' i (pmaLoop specs helpOf serverDefault promptFn rest rem i
        true ret pcnt).trace.length ∧
    (pmaLoop specs helpOf serverDefault promptFn rest rem i true ret
        pcnt).trace.map (fun e => e.2.1.optional) =
      (rem.map ArgSpec.optional).take
        (pmaLoop specs helpOf serverDefault promptFn rest rem i true ret
          pcnt).trace.length ∧
    (∀ e ∈ (pmaLoop specs helpOf serverDefault promptFn rest rem i true ret
        pcnt).trace, e.2.1.mapping = none) ∧
    ((pmaLoop specs helpOf serverDefault promptFn rest rem i true ret
        pcnt).stoppedEarly = none →
      (pmaLoop specs helpOf serverDefault promptFn rest rem i true ret
        pcnt).trace.length = rem.length ∧
      (pmaLoop specs helpOf serverDefault promptFn rest rem i true ret
        pcnt).result = rest ++ ret ++
          (pmaLoop specs helpOf serverDefault promptFn rest rem i true ret
            pcnt).trace.map (fun e => e.2.2)) ∧
    (∀ j, (pmaLoop specs helpOf serverDefault promptFn rest rem i true ret
        pcnt).stoppedEarly = some j → ∃ pre req ans,
      (pmaLoop specs helpOf serverDefault promptFn rest rem i true ret
        pcnt).trace = pre ++ [(j, req, ans)] ∧ req.optional = true ∧
      pyTruthy ans = false ∧
      (pmaLoop specs helpOf serverDefault promptFn rest rem i true ret
        pcnt).result = rest ++ ret ++ pre.map (fun e => e.2.2)) := by
  intro rem
  induction rem with
  | nil =>
    intro i ret pcnt
    refine ⟨by simp [pmaLoop, List.range'_zero], by simp [pmaLoop],
      by simp [pmaLoop], ?_, ?_⟩
    · intro
      simp [pmaLoop]
    · intro j h
      simp [pmaLoop] at h
  | cons spec rem ih =>
    intro i ret pcnt
    rw [pmaLoop]
    simp only [true_or, if_true]
    by_cases hc : ¬pyTruthy (promptFn pcnt
        (pmaReq specs helpOf serverDefault spec i (rest ++ ret))) = true ∧
        spec.optional = true
    · rw [if_pos hc]
      refine ⟨by simp [List.range'_succ, List.range'_zero], ?_, ?_, ?_, ?_⟩
      · simp [pmaReq, hc.2]
      · intro e he
        simp at he
        simp [he, pmaReq]
      · intro h
        simp at h
      · intro j h
        simp only [Option.some.injEq] at h
        subst h
        refine ⟨[], pmaReq specs helpOf serverDefault spec i (rest ++ ret),
          promptFn pcnt (pmaReq specs helpOf serverDefault spec i (rest ++ ret)),
          by simp, ?_, ?_, by simp⟩
        · simp [pmaReq, hc.2]
        · simpa using hc.1
    · rw [if_neg hc]
      obtain ⟨ih1, ih2, ih3, ih4, ih5⟩ := ih (i + 1) (ret ++ [promptFn pcnt
        (pmaReq specs helpOf serverDefault spec i (rest ++ ret))]) (pcnt + 1)
      refine ⟨?_, ?_, ?_, ?_, ?_⟩
      · simp only [List.map_cons, List.length_cons]
        rw [List.range'_succ i _ 1, ih1]
      · simp only [List.map_cons, List.length_cons, List.take_succ_cons]
        rw [ih2]
        simp [pmaReq]
      · intro e he
        rcases List.mem_cons.mp he with rfl | he'
        · simp [pmaReq]
        · exact ih3 e he'
      · intro h
        obtain ⟨hl, hr⟩ := ih4 h
        constructor
        · simp [hl]
        · simp only [hr, List.map_cons]
          simp [List.append_assoc]
      · intro j h
        obtain ⟨pre, req, ans, htr, hopt, hfal, hres⟩ := ih5 j h
        refine ⟨(i, pmaReq specs helpOf serverDefault spec i (rest ++ ret),
          promptFn pcnt (pmaReq specs helpOf serverDefault spec i
            (rest ++ ret))) :: pre, req, ans, ?_, hopt, hfal, ?_⟩
        · simp [htr]
        · simp only [hres, List.map_cons]
          simp [List.append_assoc]

/-- The index of the first non-optional declared argument at or after
position `n` (the number of arguments already provided); `specs.length`
when every remaining argument is optional. -/
def firstNonOptional (specs : List ArgSpec) (n : Nat) : Nat :=
  n + ((specs.drop n).takeWhile ArgSpec.optional).length

/-- The interactive prompter asked for a required argument (optional flag
false) with a falsy default never returns while the user keeps entering
input that strips to empty: after any number of loop iterations it is
still re-prompting. -/
theorem prompterLoop_required_empty_reprompts (inputs : Nat → String)
    (dflt : PyVal) : ∀ (fuel j : Nat), pyTruthy dflt = false →
    (∀ m, (inputs m).trim = "") →
    prompterLoop inputs none dflt false fuel j = none := by
  intro fuel
  induction fuel with
  | zero => intro j _ _; rfl
  | succ fuel ih =>
    intro j hd hin
    have hstep : prompterStep inputs none dflt false j = .again := by
      rw [prompterStep]
      rw [hin j]
      simp only [hd, Bool.false_eq_true, not_false_iff, and_true, and_self,
        if_true, Bool.false_eq_true, if_false, ite_false, ite_true]
      intro h' entries hcontra
      exact Option.noConfusion hcontra
    rw [prompterLoop, hstep]
    exact ih (j + 1) hd hin

/-- C4: for a bofh command with a static argument-spec list and a partial
argument tuple, `prompt_missing_args` prompts left to right such that:
(1) the prompted argument indices are contiguous, starting exactly at the
first non-optional missing argument; (2) every missing argument before
that point is optional (an optional argument is skipped only while no
argument has yet been prompted); (3) each prompt carries the declared
argument's optional flag (in order) and (4) a `None` choice mapping;
(5) when no early stop occurs, every remaining argument is prompted —
even optional ones — and all answers are appended to the provided
arguments; (6) an early stop happens only at a prompted optional argument
whose answer is falsy, returning exactly the arguments collected so far;
and (7) the interactive prompter (`readlineui.prompter`), which supplies
the answers in the real program, re-prompts indefinitely when a required
argument (optional flag false, no usable default) receives only empty
input. -/
theorem prompt_missing_args_policy
    (specs : List ArgSpec) (helpOf : Option String → PyVal)
    (serverDefault : Nat → List PyVal → PyVal)
    (promptFn : Nat → PromptReq → PyVal) (rest : List PyVal) (pcnt : Nat)
    (pma : PMAResult)
    (hpma : pma = prompt_missing_args specs helpOf serverDefault promptFn
      rest pcnt)
    (p : Nat) (hp : p = firstNonOptional specs rest.length)
    (hlen : rest.length ≤ specs.length) :
    (pma.trace.map Prod.fst = List.range' p pma.trace.length) ∧
    (∀ i, rest.length ≤ i → i < p →
      ∃ spec, specs.get? i = some spec ∧ spec.optional = true) ∧
    (pma.trace.map (fun e => e.2.1.optional) =
      ((specs.drop p).map ArgSpec.optional).take pma.trace.length) ∧
    (∀ e ∈ pma.trace, e.2.1.mapping = none) ∧
    (pma.stoppedEarly = none → pma.trace.length = specs.length - p ∧
      pma.result = rest ++ pma.trace.map (fun e => e.2.2)) ∧
    (∀ j, pma.stoppedEarly = some j → ∃ pre req ans,
      pma.trace = pre ++ [(j, req, ans)] ∧ req.optional = true ∧
      pyTruthy ans = false ∧ pma.result = rest ++ pre.map (fun e => e.2.2)) ∧
    (∀ (inputs : Nat → String) (dflt : PyVal) (fuel j : Nat),
      pyTruthy dflt = false → (∀ m, (inputs m).trim = "") →
      prompterLoop inputs none dflt false fuel j = none) := by
  have hn : ¬rest.length > specs.length := by omega
  have htklen : ((specs.drop rest.length).takeWhile ArgSpec.optional).length ≤
      specs.length - rest.length := by
    have h1 := (List.takeWhile_sublist
      (l := specs.drop rest.length) ArgSpec.optional).length_le
    simpa using h1
  have hdw : (specs.drop rest.length).dropWhile ArgSpec.optional =
      specs.drop p := by
    rw [dropWhile_eq_drop, List.drop_drop, hp, firstNonOptional, Nat.add_comm]
  have hpe : rest.length +
      ((specs.drop rest.length).takeWhile ArgSpec.optional).length = p := by
    rw [hp, firstNonOptional]
  have hpma' : pma = pmaLoop specs helpOf serverDefault promptFn rest
      (specs.drop p) p true [] pcnt := by
    rw [hpma, prompt_missing_args, if_neg hn, pmaLoop_skip, hdw, hpe]
  obtain ⟨h1, h2, h3, h4, h5⟩ := pmaLoop_prompting specs helpOf serverDefault
    promptFn rest (specs.drop p) p [] pcnt
  subst hpma'
  refine ⟨h1, ?_, h2, h3, ?_, ?_, ?_⟩
  · intro i hi1 hi2
    have hm : i - rest.length <
        ((specs.drop rest.length).takeWhile ArgSpec.optional).length := by
      omega
    obtain ⟨spec, hget, hopt⟩ := takeWhile_get? ArgSpec.optional
      (specs.drop rest.length) (i - rest.length) hm
    refine ⟨spec, ?_, hopt⟩
    rw [List.get?_drop] at hget
    have : rest.length + (i - rest.length) = i := by omega
    rwa [this] at hget
  · intro h
    obtain ⟨hl, hr⟩ := h4 h
    refine ⟨?_, ?_⟩
    · rw [hl]
      have hple : p ≤ specs.length := by omega
      simp [List.length_drop]
    · simpa using hr
  · intro j h
    obtain ⟨pre, req, ans, htr, hopt, hfal, hres⟩ := h5 j h
    exact ⟨pre, req, ans, htr, hopt, hfal, by simpa using hres⟩
  · intro inputs dflt fuel j hd hin
    exact prompterLoop_required_empty_reprompts inputs dflt fuel j hd hin

/-- Witness for C4: two declared arguments, the first optional and the
second required, none provided; prompting starts at (and stays from)
index 1, the first non-optional argument. -/
theorem prompt_missing_args_policy_witness :
    (prompt_missing_args [ArgSpec.opt, ArgSpec.required]
        (fun _ => PyVal.vnone) (fun _ _ => PyVal.vnone)
        (fun _ _ => PyVal.str "x") [] 0).trace.map Prod.fst =
      List.range' (firstNonOptional [ArgSpec.opt, ArgSpec.required] 0)
        (prompt_missing_args [ArgSpec.opt, ArgSpec.required]
          (fun _ => PyVal.vnone) (fun _ _ => PyVal.vnone)
          (fun _ _ => PyVal.str "x") [] 0).trace.length :=
  (prompt_missing_args_policy [ArgSpec.opt, ArgSpec.required]
    (fun _ => PyVal.vnone) (fun _ _ => PyVal.vnone)
    (fun _ _ => PyVal.str "x") [] 0 _ rfl _ rfl (by decide)).1

/-- C10: for a bofh command with a static argument-spec list, when more
arguments are provided than declared, `prompt_missing_args` returns the
provided tuple unchanged and issues no prompt at all. -/
theorem prompt_missing_args_excess_args
    (specs : List ArgSpec) (helpOf : Option String → PyVal)
    (serverDefault : Nat → List PyVal → PyVal)
    (promptFn : Nat → PromptReq → PyVal) (rest : List PyVal) (pcnt : Nat)
    (h : rest.length > specs.length) :
    prompt_missing_args specs helpOf serverDefault promptFn rest pcnt =
      ⟨rest, [], none, pcnt⟩ := by
  rw [prompt_missing_args, if_pos h]

/-- Witness for C10: one provided argument against an empty spec list. -/
theorem prompt_missing_args_excess_args_witness :
    prompt_missing_args [] (fun _ => PyVal.vnone) (fun _ _ => PyVal.vnone)
      (fun _ _ => PyVal.str "x") [PyVal.str "a"] 0 =
      ⟨[PyVal.str "a"], [], none, 0⟩ :=
  prompt_missing_args_excess_args [] (fun _ => PyVal.vnone)
    (fun _ _ => PyVal.vnone) (fun _ _ => PyVal.str "x") [PyVal.str "a"] 0
    (by decide)

/-- The `while ans == u""` loop returns the first prompter answer that is
not the empty string, after exactly one `prompted` event per
invocation. -/
theorem pfAnswerLoop_first_nonempty (promptFn : Nat → PromptReq → PyVal)
    (req : PromptReq) :
    ∀ (n fuel pcnt : Nat), n < fuel →
    (∀ m, m < n → promptFn (pcnt + m) req = .str "") →
    promptFn (pcnt + n) req ≠ .str "" →
    pfAnswerLoop promptFn req fuel pcnt =
      some (promptFn (pcnt + n) req, pcnt + n + 1,
        List.replicate (n + 1) (.prompted req.argtype)) := by
  intro n
  induction n with
  | zero =>
    intro fuel pcnt hf _ hne
    cases fuel with
    | zero => omega
    | succ fuel =>
      rw [pfAnswerLoop]
      simp only [Nat.add_zero] at hne ⊢
      rw [if_neg hne]
      simp [List.replicate]
  | succ n ih =>
    intro fuel pcnt hf hall hne
    cases fuel with
    | zero => omega
    | succ fuel =>
      rw [pfAnswerLoop]
      have h0 : promptFn pcnt req = .str "" := by
        have := hall 0 (by omega)
        simpa using this
      rw [if_pos h0]
      have harith : ∀ m : Nat, pcnt + 1 + m = pcnt + (m + 1) := by omega
      have hall' : ∀ m, m < n → promptFn (pcnt + 1 + m) req = .str "" := by
        intro m hm
        rw [harith m]
        exact hall (m + 1) (by omega)
      have hne' : promptFn (pcnt + 1 + n) req ≠ .str "" := by
        rw [harith n]
        exact hne
      rw [ih fuel (pcnt + 1) (by omega) hall' hne']
      rw [harith n]
      have harith2 : pcnt + (n + 1) + 1 = pcnt + 1 + n + 1 := by omega
      simp [List.replicate_succ, harith2, harith n]

/-- C5: in the prompt_func protocol, for every reply `v` obtained by the
round-trip (`hreply`): if the reply's `prompt` is absent (`None`) and
`last_arg` is truthy, the accumulated argument list is returned
unchanged; otherwise the prompter is invoked repeatedly — consuming
answers until the first one that is not the empty string — that answer
is appended to the accumulated arguments, and the round-trip recurses
with the updated list unless this round's `last_arg` was truthy, in
which case the updated list is returned. -/
theorem prompt_func_protocol (transport : Nat → TransportResult)
    (pyFmt : String → List PyVal → String) (argHelp : PyVal → PyVal)
    (fullname : String) (promptFn : Nat → PromptReq → PyVal)
    (promptFuel fuel : Nat) (args : List PyVal) (k pcnt : Nat)
    (v : PyVal) (ev : List Event) (k' p : Nat)
    (hreply : getPFReply transport promptFn fullname args k pcnt =
      (.ok v, ev, k', p)) :
    (pyGet v "prompt" = .vnone ∧ pyTruthy (pyGet v "last_arg") = true →
      promptFuncLoop transport pyFmt argHelp fullname promptFn promptFuel
        (fuel + 1) args k pcnt = (.done args, ev, k', p)) ∧
    (¬(pyGet v "prompt" = .vnone ∧ pyTruthy (pyGet v "last_arg") = true) →
      ∀ newmap, pfNewmap pyFmt v = some newmap →
      ∀ ans pcnt' ev3,
        pfAnswerLoop promptFn (pfReq argHelp v newmap) promptFuel p =
          some (ans, pcnt', ev3) →
      promptFuncLoop transport pyFmt argHelp fullname promptFn promptFuel
          (fuel + 1) args k pcnt =
        if pyTruthy (pyGet v "last_arg") then
          (.done (args ++ [ans]), ev ++ ev3, k', pcnt')
        else
          ((promptFuncLoop transport pyFmt argHelp fullname promptFn
              promptFuel fuel (args ++ [ans]) k' pcnt').1,
            ev ++ ev3 ++
              (promptFuncLoop transport pyFmt argHelp fullname promptFn
                promptFuel fuel (args ++ [ans]) k' pcnt').2.1,
            (promptFuncLoop transport pyFmt argHelp fullname promptFn
              promptFuel fuel (args ++ [ans]) k' pcnt').2.2)) ∧
    (∀ (req : PromptReq) (n f q : Nat), n < f →
      (∀ m, m < n → promptFn (q + m) req = .str "") →
      promptFn (q + n) req ≠ .str "" →
      pfAnswerLoop promptFn req f q =
        some (promptFn (q + n) req, q + n + 1,
          List.replicate (n + 1) (.prompted req.argtype))) := by
  refine ⟨?_, ?_, fun req n f q => pfAnswerLoop_first_nonempty promptFn req n f q⟩
  · intro hdone
    rw [promptFuncLoop, hreply]
    unfold promptFuncProcess
    dsimp only
    rw [if_pos hdone]
    simp
  · intro hnot newmap hnm ans pcnt' ev3 hans
    rw [promptFuncLoop, hreply]
    unfold promptFuncProcess
    dsimp only
    rw [if_neg hnot, hnm]
    dsimp only
    rw [hans]
    dsimp only
    by_cases hlast : pyTruthy (pyGet v "last_arg") = true
    · rw [if_pos hlast, if_pos hlast]
    · rw [if_neg hlast, if_neg hlast]

/-- Witness for C5: a reply with no `prompt` and a truthy `last_arg`
finishes the round-trip, returning the accumulated arguments
unchanged. -/
theorem prompt_func_protocol_witness :
    promptFuncLoop (fun _ => .ok (.dict [("last_arg", .bool true)]))
        (fun f _ => f) (fun h => h) "user_info" (fun _ _ => .str "x") 1 1
        [.str "alice"] 0 0 =
      (.done [.str "alice"],
        [.rpcCall "call_prompt_func" [.str "user_info", .str "alice"]], 1, 0) :=
  (prompt_func_protocol (fun _ => .ok (.dict [("last_arg", .bool true)]))
    (fun f _ => f) (fun h => h) "user_info" (fun _ _ => .str "x") 1 0
    [.str "alice"] 0 0 (.dict [("last_arg", .bool true)])
    [.rpcCall "call_prompt_func" [.str "user_info", .str "alice"]] 1 0
    (by decide)).1 (by refine ⟨?_, ?_⟩ <;> decide)

/-! ## Session-expiry recovery (C1) -/

/-- Is this event a login? -/
def Event.isLogin : Event → Bool
  | .login _ _ _ => true
  | _ => false

/-- Is this event a continuation invocation? -/
def Event.isCont : Event → Bool
  | .contInvoked => true
  | _ => false

/-- Is this event a prompter invocation? -/
def Event.isPrompt : Event → Bool
  | .prompted _ => true
  | _ => false

/-- A single session-layer attempt performs only RPC and catalog-refresh
events: no login, no continuation invocation, no prompt. -/
theorem runCommandAttempt_events_clean (transport : Nat → TransportResult)
    (name : String) (args : List PyVal) (k : Nat) :
    (runCommandAttempt transport name args k).2.1.filter Event.isLogin = [] ∧
    (runCommandAttempt transport name args k).2.1.filter Event.isCont = [] ∧
    (runCommandAttempt transport name args k).2.1.filter Event.isPrompt = [] := by
  unfold runCommandAttempt
  rcases transport k with r | s
  · simp [Event.isLogin, Event.isCont, Event.isPrompt]
  · dsimp only
    split
    · split <;> simp [Event.isLogin, Event.isCont, Event.isPrompt]
    · split
      · simp [Event.isLogin, Event.isCont, Event.isPrompt]
      · split
        · split <;> simp [Event.isLogin, Event.isCont, Event.isPrompt]
        · simp [Event.isLogin, Event.isCont, Event.isPrompt]

/-- C1: when the RPC raises a session-expired fault carrying a retry
continuation — during command dispatch (`__call__`, first conjunct) or
during a prompt_func round-trip (`_prompt_func`, second conjunct) — the
handler prompts for a password with the `accountPassword` argument type
exactly once, re-authenticates with exactly one `login(None, pw, False)`
call that skips re-fetching the command catalog, invokes the continuation
exactly once, and the value returned to the caller equals the
continuation's result (for the round-trip: the reply used is exactly the
continuation's result); when the fault carries no continuation it is
re-raised unchanged with no prompting or login (third and fourth
conjuncts). -/
theorem session_expired_retry (transport : Nat → TransportResult)
    (pf : Nat → PromptReq → PyVal) (formatFn : PyVal → String)
    (fullname : String) (args : List PyVal) (withFormat : Bool)
    (k pcnt kc : Nat) (ev1 : List Event) (k1 : Nat) :
    (∀ (srv : String) (ev2 : List Event) (k2 : Nat),
      runCommandAttempt transport "run_command" (.str fullname :: args) k =
        (.error (.sessionExpired (some kc)), ev1, k1) →
      runCommandAttempt transport "run_command" (.str fullname :: args) kc =
        (.ok (.str srv), ev2, k2) →
      commandDispatch transport (some pf) formatFn fullname args withFormat
          k pcnt =
        (.ok (.str srv),
          ev1 ++ [.prompted (some "accountPassword"),
            .login none (pf pcnt reauthReq) false, .contInvoked] ++ ev2,
          k2, pcnt + 1) ∧
      ((ev1 ++ [Event.prompted (some "accountPassword"),
          Event.login none (pf pcnt reauthReq) false, Event.contInvoked]
          ++ ev2).filter
        Event.isLogin = [Event.login none (pf pcnt reauthReq) false]) ∧
      ((ev1 ++ [Event.prompted (some "accountPassword"),
          Event.login none (pf pcnt reauthReq) false, Event.contInvoked]
          ++ ev2).filter
        Event.isCont = [Event.contInvoked]) ∧
      ((ev1 ++ [Event.prompted (some "accountPassword"),
          Event.login none (pf pcnt reauthReq) false, Event.contInvoked]
          ++ ev2).filter
        Event.isPrompt = [Event.prompted (some "accountPassword")])) ∧
    (∀ (v : PyVal) (ev2 : List Event) (k2 : Nat),
      runCommandAttempt transport "call_prompt_func" (.str fullname :: args)
          k = (.error (.sessionExpired (some kc)), ev1, k1) →
      runCommandAttempt transport "call_prompt_func" (.str fullname :: args)
          kc = (.ok v, ev2, k2) →
      getPFReply transport pf fullname args k pcnt =
        (.ok v,
          ev1 ++ [.prompted (some "accountPassword"),
            .login none (pf pcnt reauthReq) false, .contInvoked] ++ ev2,
          k2, pcnt + 1)) ∧
    (runCommandAttempt transport "run_command" (.str fullname :: args) k =
        (.error (.sessionExpired none), ev1, k1) →
      commandDispatch transport (some pf) formatFn fullname args withFormat
          k pcnt = (.error (.sessionExpired none), ev1, k1, pcnt)) ∧
    (runCommandAttempt transport "call_prompt_func" (.str fullname :: args)
        k = (.error (.sessionExpired none), ev1, k1) →
      getPFReply transport pf fullname args k pcnt =
        (.error (.sessionExpired none), ev1, k1, pcnt)) := by
  refine ⟨?_, ?_, ?_, ?_⟩
  · intro srv ev2 k2 h1 h2
    obtain ⟨hl1, hc1, hp1⟩ := runCommandAttempt_events_clean transport
      "run_command" (.str fullname :: args) k
    obtain ⟨hl2, hc2, hp2⟩ := runCommandAttempt_events_clean transport
      "run_command" (.str fullname :: args) kc
    rw [h1] at hl1 hc1 hp1
    rw [h2] at hl2 hc2 hp2
    dsimp only at hl1 hc1 hp1 hl2 hc2 hp2
    refine ⟨?_, ?_, ?_, ?_⟩
    · unfold commandDispatch
      rw [h1]
      dsimp only
      rw [h2]
      dsimp only
      unfold applyFormat
      rw [if_neg (by simp [PyVal.isStr])]
    · simp [List.filter_append, List.filter, hl1, hl2, Event.isLogin]
    · simp [List.filter_append, List.filter, hc1, hc2, Event.isCont]
    · simp [List.filter_append, List.filter, hp1, hp2, Event.isPrompt]
  · intro v ev2 k2 h1 h2
    unfold getPFReply
    rw [h1]
    dsimp only
    rw [h2]
  · intro h1
    unfold commandDispatch
    rw [h1]
  · intro h1
    unfold getPFReply
    rw [h1]

instance : DecidableEq (Except CallErr PyVal × List Event × Nat) :=
  instDecidableEqProd

instance : DecidableEq (Except CallErr PyVal × List Event × Nat × Nat) :=
  instDecidableEqProd

/-- Witness for C1: a transport whose first call faults with a
session-expired error and whose retry succeeds with the string
`"done"`. -/
theorem session_expired_retry_witness :
    commandDispatch
        (fun n => if n = 0 then
          TransportResult.fault (epkg ++ "SessionExpiredError: x")
          else TransportResult.ok (.str "done"))
        (some (fun _ _ => .str "pw")) (fun _ => "") "user_info" [] true 0 0 =
      (.ok (.str "done"),
        [Event.rpcCall "run_command" [.str "user_info"],
          Event.prompted (some "accountPassword"),
          Event.login none (.str "pw") false, Event.contInvoked,
          Event.rpcCall "run_command" [.str "user_info"]], 2, 1) ∧
      ([Event.rpcCall "run_command" [.str "user_info"],
          Event.prompted (some "accountPassword"),
          Event.login none (.str "pw") false, Event.contInvoked,
          Event.rpcCall "run_command" [.str "user_info"]].filter Event.isLogin =
        [Event.login none (.str "pw") false]) ∧
      ([Event.rpcCall "run_command" [.str "user_info"],
          Event.prompted (some "accountPassword"),
          Event.login none (.str "pw") false, Event.contInvoked,
          Event.rpcCall "run_command" [.str "user_info"]].filter Event.isCont =
        [Event.contInvoked]) ∧
      ([Event.rpcCall "run_command" [.str "user_info"],
          Event.prompted (some "accountPassword"),
          Event.login none (.str "pw") false, Event.contInvoked,
          Event.rpcCall "run_command" [.str "user_info"]].filter Event.isPrompt =
        [Event.prompted (some "accountPassword")]) := by
  have h := (session_expired_retry
    (fun n => if n = 0 then
      TransportResult.fault (epkg ++ "SessionExpiredError: x")
      else TransportResult.ok (.str "done"))
    (fun _ _ => .str "pw") (fun _ => "") "user_info" [] true 0 0 1
    [Event.rpcCall "run_command" [.str "user_info"]] 1).1 "done"
    [Event.rpcCall "run_command" [.str "user_info"]] 2 (by decide) (by decide)
  simpa using h

/-! ## Command objects and the completion bridge (`bofh/parser.py`) -/

/-- The value held in a ParsedCommand slot: a scalar token string, a
parenthesized list of `(value, index)` pairs, `None`, or (only in
`HelpCommand` slots built by `match_item`) a nested tuple of
`(value, index, completions)` triples. -/
inductive SlotVal where
  | str (s : String)
  | list (items : List Tok)
  | pynone
  | nested (items : List (String × Int × List String))
deriving DecidableEq, Repr

/-- The completion spec stored in a slot: a static candidate list, or one
of the two callables of `bofh/parser.py` — `ArgCompleter` and
`FileCompleter` — whose `__call__` bodies both return `[]`. -/
inductive Completer where
  | static (cands : List String)
  | argCompleter
  | fileCompleter
deriving DecidableEq, Repr

/-- One slot of a ParsedCommand: `(value, source offset, completer)`.
The offset is `Option Int` because `_parse_source` appends slots whose
index is Python `None`. -/
abbrev Slot := SlotVal × Option Int × Completer

/-- Python 2 `==` between a unicode string and an integer is always
`False`.  The nested lookup in `Command.findarg` compares `j[0]` — the
nested pair's token text — against the integer cursor offset `start`
(`if j[0] == start`), so it can never match a position. -/
def strEqInt (_s : String) (_n : Int) : Bool := false

/-- Python `==` between a slot's recorded index (`None` or an int) and
the cursor offset. -/
def slotIdxEq (idx : Option Int) (start : Int) : Bool :=
  match idx with
  | some n => n = start
  | none => false

/-- The result of `Command.findarg`: a full slot triple, a nested
`(value, index)` pair from inside a list-valued slot, or the
`(None, -1, [])` no-match tuple. -/
inductive FindResult where
  | found (s : Slot)
  | inner (t : Tok)
  | nomatch
deriving DecidableEq, Repr

/-- `Command.findarg`: scan the slots in order; return the first slot
whose recorded index equals `start`; inside a list-valued slot, return
the first element whose *first component* (its text) equals `start`
(which never happens, see `strEqInt`); a slot recorded at `-1` matches
when `start == end == len(line)`; otherwise `(None, -1, [])`. -/
def findarg (line : String) (start endp : Int) : List Slot → FindResult
  | [] => .nomatch
  | i :: rest =>
    if slotIdxEq i.2.1 start then .found i
    else
      let innerHit : Option Tok :=
        match i.1 with
        | .list items => items.find? (fun j => strEqInt j.1 start)
        | _ => none
      match innerHit with
      | some j => .inner j
      | none =>
        if i.2.1 = some (-1) ∧ start = endp ∧ endp = (line.length : Int) then
          .found i
        else findarg line start endp rest

/-- Exceptions the completion bridge can raise. -/
inductive PyExc where
  | indexError
deriving DecidableEq, Repr

/-- `Command.complete`: look up the slot for the cursor span; a static
candidate list is returned verbatim; a callable completer is invoked
(`arg[2](start, end, *arg)`; both callables in the code return `[]`); a
nested pair found by the inner lookup has no third component, so
`arg[2]` raises `IndexError`; no match returns the `[]` of the
`(None, -1, [])` tuple. -/
def complete (line : String) (start endp : Int) (args : List Slot) :
    Except PyExc (List String) :=
  match findarg line start endp args with
  | .found (_, _, .static cands) => .ok cands
  | .found (_, _, .argCompleter) => .ok []
  | .found (_, _, .fileCompleter) => .ok []
  | .inner _ => .error .indexError
  | .nomatch => .ok []

/-- C9 (evaluation at the failing input): the command's only slot holds
the parenthesized list `[("alice", 3)]` and is itself recorded at offset
0; completing at the cursor span `(3, 3)` on the 12-character line
returns the empty no-match result even though the nested element
`("alice", 3)` is recorded at offset 3: `findarg`'s nested lookup
compares the element's text `"alice"` — not its offset — with the cursor
offset, a comparison between a string and an integer that is always
false in Python 2. -/
theorem complete_nested_offset_never_found :
    complete "user (alice)" 3 3
        [(.list [("alice", 3)], some 0, .static ["user"])] = .ok [] ∧
    findarg "user (alice)" 3 3
        [(.list [("alice", 3)], some 0, .static ["user"])] = .nomatch ∧
    strEqInt "alice" 3 = false ∧
    (("alice", (3 : Int)) ∈ [(("alice" : String), (3 : Int))] ∧
      (3 : Int) = 3) := by
  refine ⟨by decide, by decide, rfl, by decide, rfl⟩

/-- `_prepare_args` of `bofh/parser.py`: iterate over parsed slots,
skipping any slot whose recorded position is `-1`; a list-valued slot
contributes the list of its elements' first components; other values are
passed through. -/
def _prepare_args : List Slot → List PyVal
  | [] => []
  | (v, pos, _) :: rest =>
    if pos = some (-1) then _prepare_args rest
    else
      match v with
      | .list items => .list (items.map (fun j => .str j.1)) :: _prepare_args rest
      | .str s => .str s :: _prepare_args rest
      | .pynone => .vnone :: _prepare_args rest
      | .nested items =>
        .list (items.map (fun j => .str j.1)) :: _prepare_args rest

/-- The value a slot contributes to the real call arguments. -/
def slotValToPy : SlotVal → PyVal
  | .str s => .str s
  | .list items => .list (items.map (fun j => .str j.1))
  | .pynone => .vnone
  | .nested items => .list (items.map (fun j => .str j.1))

theorem prepare_args_filter (slots : List Slot) :
    _prepare_args slots =
      (slots.filter (fun s => !(s.2.1 = some (-1) : Bool))).map
        (fun s => slotValToPy s.1) := by
  induction slots with
  | nil => rfl
  | cons s rest ih =>
    obtain ⟨v, pos, c⟩ := s
    rw [_prepare_args.eq_def]
    dsimp only
    by_cases hpos : pos = some (-1)
    · simp [hpos, List.filter_cons, ih]
    · rcases v <;> simp [hpos, List.filter_cons, ih, slotValToPy]

/-! ## The catalog and the command parsers (`parse` and sub-parsers) -/

/-- Code-point comparison of character lists, the order Python 2 uses to
sort unicode command names. -/
def charListLe : List Char → List Char → Bool
  | [], _ => true
  | _ :: _, [] => false
  | a :: as', b :: bs' =>
    if a < b then true else if b < a then false else charListLe as' bs'

/-- `a <= b` on strings, code-point lexicographic (Python 2 unicode
comparison). -/
def strLe (a b : String) : Bool := charListLe a.data b.data

/-- Insert into a sorted list (helper for `sortStrings`). -/
def insertSorted (x : String) : List String → List String
  | [] => [x]
  | y :: ys => if strLe x y then x :: y :: ys else y :: insertSorted x ys

/-- Python `sorted()` on a list of strings (insertion sort; Python's
sort is stable and total on strings, so any sorting algorithm denotes
the same function). -/
def sortStrings : List String → List String
  | [] => []
  | x :: xs => insertSorted x (sortStrings xs)

/-- One command of the server catalog: its full name (the key passed to
`run_command`) and its argument specification. -/
structure CmdEntry where
  fullname : String
  argspec : ArgsSpec
deriving DecidableEq, Repr

/-- The server-supplied command catalog built by `_init_commands`: group
name → command name → entry. -/
structure Catalog where
  groups : List (String × List (String × CmdEntry))
deriving DecidableEq, Repr

/-- `Bofh.get_bofh_command_value` for a group name. -/
def Catalog.findGroup (c : Catalog) (name : String) :
    Option (List (String × CmdEntry)) :=
  (c.groups.find? (fun g => g.1 = name)).map Prod.snd

/-- `get_bofh_commands(bofh)`: the sorted group keys. -/
def get_bofh_commands (c : Catalog) : List String :=
  sortStrings (c.groups.map Prod.fst)

/-- `get_internal_commands()`: the sorted keys of `_internal_cmds`. -/
def get_internal_commands : List String :=
  ["commands", "help", "quit", "script", "source"]

/-- The command object a successful parse produces: a bofh command (with
its resolved catalog entry when the command name was a sole match), an
internal command, or a no-argument single command. -/
inductive ParseResult where
  | bofhCmd (slots : List Slot) (cmd : Option CmdEntry) (line : String)
  | internalCmd (name : String) (slots : List Slot) (line : String)
  | singleCmd (fullcmd cmd : String) (index : Int) (line : String)
deriving DecidableEq, Repr

/-- The exceptions escaping the command parsers: an `IncompleteParse`
carrying a partially built command object, a raw token-layer exception
(`IncompleteParse` with its raw payload, or `SynErr`), the top-level
`NoGroup`, and the unreachable Python `NameError` / `AttributeError` /
`TypeError` corners. -/
inductive ParseErr where
  | incompleteCmd (msg : String) (slots : List Slot) (line : String)
    (completions : List String)
  | perr (e : PErr)
  | noGroup (rest : Option (List Tok)) (completions : List String)
  | nameError
  | attrError
  | typeError
deriving DecidableEq, Repr

/-- A parsed argument value as a slot value. -/
def argValToSlotVal : ArgVal → SlotVal
  | .str s => .str s
  | .list items => .list items

/-- The slot(s) salvaged from an `IncompleteParse` payload in the
declared-argument loop of `_parse_bofh_command` (`if e.parse: ...`):
a truthy payload contributes one slot. -/
def payloadSlots : PPartial → List Slot
  | .tok v i => [(.str v, some i, .argCompleter)]
  | .toklist items i => [(.list items, some i, .argCompleter)]
  | _ => []

/-- The `for expected in cmd_obj.args` loop of `_parse_bofh_command`:
one `parse_string_or_list` per declared argument (`n` counts the spec
list); a failed parse salvages its partial payload and appends the
`("", -1)` placeholder, and the loop continues with the next declared
argument; a `SynErr` propagates. -/
def declaredLoop : List Tok → Nat → Except PErr (List Slot × List Tok)
  | toks, 0 => .ok ([], toks)
  | toks, n + 1 =>
    match parse_string_or_list toks with
    | (.ok (arg, idx), rem) =>
      match declaredLoop rem n with
      | .ok (slots, rem') =>
        .ok ((argValToSlotVal arg, some idx, Completer.argCompleter) :: slots,
          rem')
      | .error e => .error e
    | (.error (.incomplete _ payload _), rem) =>
      match declaredLoop rem n with
      | .ok (slots, rem') =>
        .ok ((payloadSlots payload ++
          [(SlotVal.str "", some (-1), Completer.argCompleter)]) ++ slots, rem')
      | .error e => .error e
    | (.error (.syn m i), _) => .error (.syn m i)

/-- The trailing `while True` loop of `_parse_bofh_command` consuming
extra arguments beyond the declared list: parse until `IncompleteParse`,
which ends the loop carrying its message, payload and completions (and
the consumed stream position); a `SynErr` propagates. -/
def extrasLoop (toks : List Tok) :
    Except PErr (List Slot × String × PPartial × List String × List Tok) :=
  match h : parse_string_or_list toks with
  | (.ok (arg, idx), rem) =>
    match extrasLoop rem with
    | .ok (slots, msg, payload, comps, rem') =>
      .ok ((argValToSlotVal arg, some idx, Completer.static []) :: slots,
        msg, payload, comps, rem')
    | .error e => .error e
  | (.error (.incomplete msg payload comps), rem) =>
    .ok ([], msg, payload, comps, rem)
  | (.error (.syn m i), _) => .error (.syn m i)
termination_by toks.length
decreasing_by exact parse_string_or_list_length h

/-- `_parse_bofh_command`: resolve the command name within the group's
command set; on a sole match, bind the catalog entry, parse one argument
per declared spec, then consume extra trailing arguments until the lexer
is exhausted; when the final `IncompleteParse` salvaged a partial value,
one more parse is attempted and the incomplete state is re-raised
carrying the partially built command. -/
def parse_bofh_command (grpCmds : List (String × CmdEntry))
    (fullgrp group : String) (start : Int) (toks : List Tok)
    (line : String) : Except ParseErr ParseResult :=
  let slots0 : List Slot := [(.str group, some start, .static [fullgrp])]
  let group_cmds := sortStrings (grpCmds.map Prod.fst)
  match parse_string toks group_cmds with
  | (.error (.incomplete msg _ comps), _) =>
    .error (.incompleteCmd msg
      (slots0 ++ [(.str "", some (-1), .static group_cmds)]) line comps)
  | (.error e, _) => .error (.perr e)
  | (.ok (cmd, idx, fltrcmds, solematch), rest) =>
    let slots1 := slots0 ++ [(.str cmd, some idx, .static fltrcmds)]
    match solematch with
    | none => .ok (.bofhCmd slots1 none line)
    | some sm =>
      match grpCmds.find? (fun p => p.1 = sm) with
      | none => .error .attrError
      | some (_, entry) =>
        let nargs :=
          match entry.argspec with
          | .promptFunc => 1
          | .static specs => specs.length
        match declaredLoop rest nargs with
        | .error e => .error (.perr e)
        | .ok (argSlots, rem2) =>
          match extrasLoop rem2 with
          | .error e => .error (.perr e)
          | .ok (extraSlots, msg, payload, comps, rem3) =>
            let slots2 := slots1 ++ argSlots ++ extraSlots
            if payload = .nothing ∨ payload = .emptyStr then
              .ok (.bofhCmd slots2 (some entry) line)
            else
              match parse_string_or_list rem3 with
              | (.ok (arg, idx2), _) =>
                if nargs = 0 then .error .nameError
                else .error (.incompleteCmd msg
                  (slots2 ++ [(argValToSlotVal arg, some idx2,
                    Completer.argCompleter)]) line comps)
              | (.error e2, _) => .error (.perr e2)

/-- The argument-collection loop of `_parse_help`: parse until
`IncompleteParse`, appending a truthy salvaged payload as a final
entry. -/
def collectHelpArgs (toks : List Tok) : Except PErr (List (ArgVal × Int)) :=
  match h : parse_string_or_list toks with
  | (.ok (arg, idx), rem) =>
    match collectHelpArgs rem with
    | .ok args => .ok ((arg, idx) :: args)
    | .error e => .error e
  | (.error (.incomplete _ payload _), _) =>
    .ok (match payload with
      | .tok v i => [(.str v, i)]
      | .toklist items i => [(.list items, i)]
      | _ => [])
  | (.error (.syn m i), _) => .error (.syn m i)
termination_by toks.length
decreasing_by exact parse_string_or_list_length h

/-- `match_item` of `_parse_help`: a scalar argument is matched against
the candidate set by prefix; a list-valued argument has each element
matched recursively (producing `(value, index, completions)` triples)
and an empty completion list of its own. -/
def match_item (cmd : ArgVal × Int) (expected : List String) :
    SlotVal × Int × List String :=
  match cmd.1 with
  | .list items =>
    (.nested (items.map
      (fun j => (j.1, j.2, expected.filter (fun x => pyStartswith x j.1)))),
      cmd.2, [])
  | .str s => (.str s, cmd.2, expected.filter (fun x => pyStartswith x s))

/-- `_parse_help`: collect up to two arguments; three or more positional
arguments raise `SynErr("Too many arguments for help", args[2][1])`;
otherwise the first argument is matched against all commands and the
second (if present) against the resolved group's commands. -/
def parse_help (catalog : Catalog) (fullgrp group : String) (start : Int)
    (toks : List Tok) (line : String) : Except ParseErr ParseResult :=
  let slots0 : List Slot := [(.str group, some start, .static [fullgrp])]
  match collectHelpArgs toks with
  | .error e => .error (.perr e)
  | .ok args =>
    if h2 : 2 < args.length then
      .error (.perr (.syn "Too many arguments for help"
        (args.get ⟨2, h2⟩).2))
    else
      let bofhcmds := get_bofh_commands catalog
      let allcmds := get_internal_commands ++ bofhcmds
      if h0 : args.length = 0 then
        .ok (.internalCmd "help"
          (slots0 ++ [(.str "", some (-1), .static allcmds)]) line)
      else
        let m0 := match_item (args.get ⟨0, by omega⟩) allcmds
        let slots1 := slots0 ++ [(m0.1, some m0.2.1, .static m0.2.2)]
        match m0.2.2 with
        | [c0] =>
          match catalog.findGroup c0 with
          | some grpCmds =>
            let grpcmds := sortStrings (grpCmds.map Prod.fst)
            if h1 : args.length = 2 then
              let m1 := match_item (args.get ⟨1, by omega⟩) grpcmds
              .ok (.internalCmd "help"
                (slots1 ++ [(m1.1, some m1.2.1, .static m1.2.2)]) line)
            else
              .ok (.internalCmd "help"
                (slots1 ++ [(.pynone, some (-1), .static grpcmds)]) line)
          | none =>
            if c0 ∈ get_internal_commands then
              if h1 : args.length = 1 then
                .ok (.internalCmd "help" slots1 line)
              else
                .error (.perr (.syn "Too many arguments for help"
                  (args.get ⟨1, by omega⟩).2))
            else .ok (.internalCmd "help" slots1 line)
        | _ =>
          if h1 : args.length = 2 then
            .ok (.internalCmd "help"
              (slots1 ++ [(argValToSlotVal (args.get ⟨1, by omega⟩).1,
                some (args.get ⟨1, by omega⟩).2, .static [])]) line)
          else .ok (.internalCmd "help" slots1 line)

/-- The argument-collection loop of `_parse_script`, using
`parse_string` (with no candidate set) and discarding the payload of the
final `IncompleteParse`. -/
def collectScriptArgs (toks : List Tok) : Except PErr (List (String × Int)) :=
  match h : parse_string toks [] with
  | (.ok (val, idx, _, _), rem) =>
    match collectScriptArgs rem with
    | .ok args => .ok ((val, idx) :: args)
    | .error e => .error e
  | (.error (.incomplete _ _ _), _) => .ok []
  | (.error (.syn m i), _) => .error (.syn m i)
termination_by toks.length
decreasing_by exact parse_string_length h

/-- `_parse_script`: at most one argument (a filename); two or more raise
`SynErr("Too many arguments for script", args[1][1])`; a single argument
is offered as the literal completion when it names a readable file
(`_is_file`, modeled by the oracle `isFile`), else a file completer. -/
def parse_script (isFile : String → Bool) (fullgrp group : String)
    (start : Int) (toks : List Tok) (line : String) :
    Except ParseErr ParseResult :=
  let slots0 : List Slot := [(.str group, some start, .static [fullgrp])]
  match collectScriptArgs toks with
  | .error e => .error (.perr e)
  | .ok args =>
    if h1 : 1 < args.length then
      .error (.perr (.syn "Too many arguments for script"
        (args.get ⟨1, h1⟩).2))
    else if h0 : args.length = 1 then
      let a := args.get ⟨0, by omega⟩
      if isFile a.1 then
        .ok (.internalCmd "script"
          (slots0 ++ [(.str a.1, some a.2, .static [a.1])]) line)
      else
        .ok (.internalCmd "script"
          (slots0 ++ [(.str a.1, some a.2, .fileCompleter)]) line)
    else
      .ok (.internalCmd "script"
        (slots0 ++ [(.pynone, some (-1), .fileCompleter)]) line)

/-- The argument-collection loop of `_parse_source`, using
`parse_string_or_list` and discarding the payload of the final
`IncompleteParse`. -/
def collectSourceArgs (toks : List Tok) : Except PErr (List (ArgVal × Int)) :=
  match h : parse_string_or_list toks with
  | (.ok (arg, idx), rem) =>
    match collectSourceArgs rem with
    | .ok args => .ok ((arg, idx) :: args)
    | .error e => .error e
  | (.error (.incomplete _ _ _), _) => .ok []
  | (.error (.syn m i), _) => .error (.syn m i)
termination_by toks.length
decreasing_by exact parse_string_or_list_length h

/-- `_parse_source`: an optional `--ignore-errors` flag before a
filename; with two arguments the first must be (a prefix of)
`--ignore-errors`, otherwise a `SynErr` names it; three or more
arguments raise `SynErr("Too many arguments for source", args[2][1])`.
A list-valued first argument would make Python's
`'--ignore-errors'.startswith(...)` raise `TypeError`. -/
def parse_source (isFile : String → Bool) (fullgrp group : String)
    (start : Int) (toks : List Tok) (line : String) :
    Except ParseErr ParseResult :=
  let slots0 : List Slot := [(.str group, some start, .static [fullgrp])]
  match collectSourceArgs toks with
  | .error e => .error (.perr e)
  | .ok args =>
    if h0 : args.length = 0 then
      .ok (.internalCmd "source"
        (slots0 ++ [(.pynone, some (-1), .fileCompleter)]) line)
    else if h1 : args.length = 1 then
      match (args.get ⟨0, by omega⟩).1 with
      | .list _ => .error .typeError
      | .str s =>
        let i0 := (args.get ⟨0, by omega⟩).2
        if pyStartswith "--ignore-errors" s then
          .ok (.internalCmd "source"
            (slots0 ++ [(.str s, some i0, .static ["--ignore-errors"])]) line)
        else if isFile s then
          .ok (.internalCmd "source"
            (slots0 ++ [(.pynone, none, .static []),
              (.str s, some i0, .static [s])]) line)
        else
          .ok (.internalCmd "source"
            (slots0 ++ [(.pynone, none, .static []),
              (.str s, some i0, .fileCompleter)]) line)
    else if h2 : args.length = 2 then
      match (args.get ⟨0, by omega⟩).1 with
      | .list _ => .error .typeError
      | .str s =>
        if pyStartswith "--ignore-errors" s then
          .ok (.internalCmd "source"
            (slots0 ++
              [(.str s, some (args.get ⟨1, by omega⟩).2,
                .static ["--ignore-errors"]),
               (argValToSlotVal (args.get ⟨1, by omega⟩).1,
                some (args.get ⟨1, by omega⟩).2, .fileCompleter)]) line)
        else
          .error (.perr (.syn ("Expected --ignore-errors, found " ++ s)
            (args.get ⟨0, by omega⟩).2))
    else
      .error (.perr (.syn "Too many arguments for source"
        (args.get ⟨2, by omega⟩).2))

/-- `parse`: resolve the first token against internal commands and group
names; a sole match dispatches to the bofh-command sub-parser or the
matching internal sub-parser; no sole match raises `NoGroup` carrying the
remaining tokens and the filtered candidates; an exhausted or
signal-interrupted stream raises `NoGroup` with the full candidate
set. -/
def parse (catalog : Catalog) (isFile : String → Bool) (text : String) :
    Except ParseErr ParseResult :=
  let lex := lexer text
  let bofhcmds := get_bofh_commands catalog
  let allcmds := get_internal_commands ++ bofhcmds
  match parse_string lex allcmds with
  | (.error (.incomplete _ _ _), _) => .error (.noGroup none allcmds)
  | (.error e, _) => .error (.perr e)
  | (.ok (group, idx, fltrcmds, solematch), rest) =>
    match solematch with
    | some fullgrp =>
      if fullgrp ∈ bofhcmds then
        match catalog.findGroup fullgrp with
        | some grpCmds => parse_bofh_command grpCmds fullgrp group idx rest text
        | none => .error .attrError
      else if fullgrp = "help" then
        parse_help catalog fullgrp group idx rest text
      else if fullgrp = "script" then
        parse_script isFile fullgrp group idx rest text
      else if fullgrp = "source" then
        parse_source isFile fullgrp group idx rest text
      else if fullgrp = "commands" ∨ fullgrp = "quit" then
        .ok (.singleCmd fullgrp group idx text)
      else .error .typeError
    | none => .error (.noGroup (some ((group, idx) :: rest)) fltrcmds)

/-! ## `BofhCommand.eval` (C7) and the argument-count errors (C8) -/

/-- `BofhCommand.eval`: assemble the real call arguments from the slots
after the first two (command group and command name) with
`_prepare_args`, then run `_Command.__call__`; when no command object
was bound (no sole match), the attribute access fails and
`NoGroup(None, args)` is raised, modeled as the `.error` channel
carrying the prepared arguments. -/
def bofhEval (transport : Nat → TransportResult)
    (prompter : Option (Nat → PromptReq → PyVal))
    (helpOf : Option String → PyVal)
    (serverDefault : Nat → List PyVal → PyVal)
    (pyFmt : String → List PyVal → String) (argHelp : PyVal → PyVal)
    (formatFn : PyVal → String) (slots : List Slot) (cmd : Option CmdEntry)
    (withFormat : Bool) (promptFuel pfFuel k pcnt : Nat) :
    Except (List PyVal) (CmdOutcome × List Event × Nat × Nat) :=
  let args := _prepare_args (slots.drop 2)
  match cmd with
  | none => .error args
  | some entry =>
    .ok (commandCall transport prompter helpOf serverDefault pyFmt argHelp
      formatFn entry.fullname entry.argspec args withFormat promptFuel
      pfFuel k pcnt)

/-- The example catalog entry of the end-to-end scenario: command
`user info` with full name `user_info` and one required argument. -/
def uiEntry : CmdEntry := ⟨"user_info", .static [ArgSpec.required]⟩

/-- The example catalog: one group `user` with one command `info`. -/
def uiCatalog : Catalog := ⟨[("user", [("info", uiEntry)])]⟩

/-- The slots `parse` produces for `user info alice` under
`uiCatalog`. -/
def uiSlots : List Slot :=
  [(.str "user", some 0, .static ["user"]),
   (.str "info", some 5, .static ["info"]),
   (.str "alice", some 10, .argCompleter)]

/-- C8: the internal commands enforce their argument counts with hard
syntax errors: `help` with three or more positional arguments raises
`SynErr("Too many arguments for help", args[2][1])`; `script` with two
or more raises `SynErr("Too many arguments for script", args[1][1])`;
`source` with three or more raises
`SynErr("Too many arguments for source", args[2][1])`. -/
theorem internal_commands_arg_count_errors (catalog : Catalog)
    (isFile : String → Bool) (fullgrp group : String) (start : Int)
    (toks : List Tok) (line : String) :
    (∀ (args : List (ArgVal × Int)),
      collectHelpArgs toks = Except.ok args → ∀ hl : 2 < args.length,
      parse_help catalog fullgrp group start toks line =
        Except.error (ParseErr.perr (PErr.syn "Too many arguments for help"
          (args.get ⟨2, hl⟩).2))) ∧
    (∀ (args : List (String × Int)),
      collectScriptArgs toks = Except.ok args → ∀ hl : 1 < args.length,
      parse_script isFile fullgrp group start toks line =
        Except.error (ParseErr.perr (PErr.syn "Too many arguments for script"
          (args.get ⟨1, hl⟩).2))) ∧
    (∀ (args : List (ArgVal × Int)),
      collectSourceArgs toks = Except.ok args → ∀ hl : 2 < args.length,
      parse_source isFile fullgrp group start toks line =
        Except.error (ParseErr.perr (PErr.syn "Too many arguments for source"
          (args.get ⟨2, hl⟩).2))) := by
  refine ⟨?_, ?_, ?_⟩
  · intro args hc hl
    rw [parse_help.eq_def, hc]
    dsimp only
    rw [dif_pos hl]
  · intro args hc hl
    rw [parse_script.eq_def, hc]
    dsimp only
    rw [dif_pos hl]
  · intro args hc hl
    rw [parse_source.eq_def, hc]
    dsimp only
    rw [dif_neg (by omega), dif_neg (by omega), dif_neg (by omega)]

/-- C8 at a concrete input: three plain arguments trip all three
checks, at the third argument's offset for `help` and `source` and the
second's for `script`. -/
theorem internal_commands_arg_count_errors_witness :
    collectHelpArgs [("a", 0), ("b", 2), ("c", 4)] =
      Except.ok [(ArgVal.str "a", 0), (ArgVal.str "b", 2),
        (ArgVal.str "c", 4)] ∧
    collectScriptArgs [("a", 0), ("b", 2), ("c", 4)] =
      Except.ok [("a", 0), ("b", 2), ("c", 4)] ∧
    collectSourceArgs [("a", 0), ("b", 2), ("c", 4)] =
      Except.ok [(ArgVal.str "a", 0), (ArgVal.str "b", 2),
        (ArgVal.str "c", 4)] ∧
    parse_help uiCatalog "x" "x" 0 [("a", 0), ("b", 2), ("c", 4)] "ln" =
      Except.error (ParseErr.perr
        (PErr.syn "Too many arguments for help" 4)) ∧
    parse_script (fun _ => false) "x" "x" 0
        [("a", 0), ("b", 2), ("c", 4)] "ln" =
      Except.error (ParseErr.perr
        (PErr.syn "Too many arguments for script" 2)) ∧
    parse_source (fun _ => false) "x" "x" 0
        [("a", 0), ("b", 2), ("c", 4)] "ln" =
      Except.error (ParseErr.perr
        (PErr.syn "Too many arguments for source" 4)) := by
  have hh : collectHelpArgs [("a", 0), ("b", 2), ("c", 4)] =
      Except.ok [(ArgVal.str "a", 0), (ArgVal.str "b", 2),
        (ArgVal.str "c", 4)] := by
    simp +decide [collectHelpArgs, parse_string_or_list, parse_string]
  have hs : collectScriptArgs [("a", 0), ("b", 2), ("c", 4)] =
      Except.ok [("a", 0), ("b", 2), ("c", 4)] := by
    simp +decide [collectScriptArgs, parse_string]
  have hr : collectSourceArgs [("a", 0), ("b", 2), ("c", 4)] =
      Except.ok [(ArgVal.str "a", 0), (ArgVal.str "b", 2),
        (ArgVal.str "c", 4)] := by
    simp +decide [collectSourceArgs, parse_string_or_list, parse_string]
  obtain ⟨H1, H2, H3⟩ := internal_commands_arg_count_errors uiCatalog
    (fun _ => false) "x" "x" 0 [("a", 0), ("b", 2), ("c", 4)] "ln"
  exact ⟨hh, hs, hr, H1 _ hh (by decide), H2 _ hs (by decide),
    H3 _ hr (by decide)⟩

/-- C7: evaluating a fully parsed bofh command with no prompter sends
exactly the values of the slots after the first two whose recorded
offset is not `-1` (placeholder slots are skipped), in exactly one
`run_command` RPC call; in particular, under a catalog defining group
`user` with command `info` taking one required argument, `parse` on
`user info alice` yields a `BofhCommand` whose evaluation dispatches
exactly one `run_command("user_info", "alice")` call. -/
theorem bofh_eval_skips_placeholders_single_dispatch
    (transport : Nat → TransportResult) (helpOf : Option String → PyVal)
    (serverDefault : Nat → List PyVal → PyVal)
    (pyFmt : String → List PyVal → String) (argHelp : PyVal → PyVal)
    (formatFn : PyVal → String) (slots : List Slot) (entry : CmdEntry)
    (isFile : String → Bool) (promptFuel pfFuel k pcnt : Nat) (resp : PyVal)
    (htr : transport k = TransportResult.ok resp) :
    bofhEval transport none helpOf serverDefault pyFmt argHelp formatFn
        slots (some entry) false promptFuel pfFuel k pcnt =
      Except.ok (CmdOutcome.ok (washresponse resp),
        [Event.rpcCall "run_command" (format_args (PyVal.str entry.fullname ::
          ((slots.drop 2).filter
            (fun s => !(s.2.1 = some (-1) : Bool))).map
              (fun s => slotValToPy s.1)))],
        k + 1, pcnt) ∧
    parse uiCatalog isFile "user info alice" =
      Except.ok (ParseResult.bofhCmd uiSlots (some uiEntry)
        "user info alice") ∧
    bofhEval transport none helpOf serverDefault pyFmt argHelp formatFn
        uiSlots (some uiEntry) false promptFuel pfFuel k pcnt =
      Except.ok (CmdOutcome.ok (washresponse resp),
        [Event.rpcCall "run_command"
          [PyVal.str "user_info", PyVal.str "alice"]],
        k + 1, pcnt) := by
  have hgen : ∀ (sl : List Slot) (e : CmdEntry),
      bofhEval transport none helpOf serverDefault pyFmt argHelp formatFn
          sl (some e) false promptFuel pfFuel k pcnt =
        Except.ok (CmdOutcome.ok (washresponse resp),
          [Event.rpcCall "run_command" (format_args (PyVal.str e.fullname ::
            ((sl.drop 2).filter
              (fun s => !(s.2.1 = some (-1) : Bool))).map
                (fun s => slotValToPy s.1)))],
          k + 1, pcnt) := by
    intro sl e
    simp [bofhEval, commandCall, commandDispatch, runCommandAttempt, htr,
      applyFormat, prepare_args_filter]
  have hlex : lexer "user info alice" =
      [("user", 0), ("info", 5), ("alice", 10)] := by decide
  have hext : extrasLoop [] =
      Except.ok ([], "Expected string or list, got nothing",
        PPartial.nothing, [], []) := by
    simp +decide [extrasLoop, parse_string_or_list]
  have hparse : parse uiCatalog isFile "user info alice" =
      Except.ok (ParseResult.bofhCmd uiSlots (some uiEntry)
        "user info alice") := by
    simp +decide [parse, hlex, get_bofh_commands, get_internal_commands,
      uiCatalog, uiEntry, uiSlots, sortStrings, insertSorted, strLe,
      charListLe, parse_string, soleMatch, pyStartswith, Catalog.findGroup,
      parse_bofh_command, declaredLoop, parse_string_or_list, hext,
      payloadSlots, argValToSlotVal, pyRepr]
  refine ⟨hgen slots entry, hparse, ?_⟩
  have h3 := hgen uiSlots uiEntry
  simpa +decide [uiSlots, uiEntry, slotValToPy, format_args] using h3

/-- C7 at a concrete input: a transport answering `"ok"` at index 0;
the parsed `user info alice` command evaluates to exactly one
`run_command("user_info", "alice")` call returning `"ok"`. -/
theorem bofh_eval_skips_placeholders_witness :
    (fun _ : Nat => TransportResult.ok (PyVal.str "ok")) 0 =
      TransportResult.ok (PyVal.str "ok") ∧
    parse uiCatalog (fun _ => false) "user info alice" =
      Except.ok (ParseResult.bofhCmd uiSlots (some uiEntry)
        "user info alice") ∧
    bofhEval (fun _ => TransportResult.ok (PyVal.str "ok")) none
        (fun _ => PyVal.vnone) (fun _ _ => PyVal.vnone) (fun _ _ => "")
        (fun _ => PyVal.vnone) (fun _ => "") uiSlots (some uiEntry) false
        0 0 0 0 =
      Except.ok (CmdOutcome.ok (PyVal.str "ok"),
        [Event.rpcCall "run_command"
          [PyVal.str "user_info", PyVal.str "alice"]],
        1, 0) := by
  have h := bofh_eval_skips_placeholders_single_dispatch
    (fun _ => TransportResult.ok (PyVal.str "ok")) (fun _ => PyVal.vnone)
    (fun _ _ => PyVal.vnone) (fun _ _ => "") (fun _ => PyVal.vnone)
    (fun _ => "") uiSlots uiEntry (fun _ => false) 0 0 0 0
    (PyVal.str "ok") rfl
  exact ⟨rfl, h.2.1, by simpa [washresponse] using h.2.2⟩

end Pybofh
